import Mathlib

/-!
# Verification of the mapping-assistant core

A shallow embedding of the mapping engine of this repository: the
similarity scorer and sample-mapping generator (src/unnamed/part_010,
first segment), the zustand mapping store (src/unnamed/part_010, second
segment), the command parser `MappingCommandParser`
(src/unnamed/part_010, fourth segment) and the instruction processor
`AIMappingProcessor` (src/lib/ai-mapping-processor.ts).

Modelling conventions:
* JavaScript strings are Lean `String`s; `toLowerCase` is mapped
  characterwise with `Char.toLower` (the repository only manipulates
  ASCII field names).
* Fractional scores (0.85, 0.9, ...) are `Rat`s.
* Timestamps (`new Date().toISOString()`) are a `Nat` parameter `now`
  threaded into every store operation that stamps a record.
* `Date.now() + random` mapping ids are modelled by a monotone counter
  `nextId` in the store; freshness of generated ids is the uniqueness
  the source obtains from the random suffix.
* Free-text instructions are modelled as their whitespace-separated
  word lists (`List String`); the regex command patterns are modelled
  as token matchers, faithful to the source regexes for instructions
  whose keywords and field tokens are whole, quote-free words.
-/

/-! ## String helpers -/

/-- Characterwise lower-casing, the model of `String.prototype.toLowerCase`. -/
def lowerStr (s : String) : String := ⟨s.data.map Char.toLower⟩

/-- `charsPrefixOf small big` is true when `small` is a prefix of `big`. -/
def charsPrefixOf : List Char → List Char → Bool
  | [], _ => true
  | _ :: _, [] => false
  | a :: as, b :: bs => a == b && charsPrefixOf as bs

/-- `subAt small big` is true when `small` occurs contiguously inside `big`
(the model of `String.prototype.includes`, which holds for the empty string). -/
def subAt (small : List Char) : List Char → Bool
  | [] => small.isEmpty
  | c :: rest => charsPrefixOf small (c :: rest) || subAt small rest

/-- `containsStr big small`: model of `big.includes(small)` on JS strings. -/
def containsStr (big small : String) : Bool := subAt small.data big.data

/-- `listContainsSub big small`: model of `big.includes(small)` on the
normalized character lists used by the similarity scorer. -/
def listContainsSub (big small : List Char) : Bool := subAt small big

/-- One row step of the Levenshtein dynamic program of
`levenshteinDistance` (part_010 / mapping-commands): given the
remaining characters of `str1`, the tail of the previous row, the
diagonal predecessor and the value to the left, produce the rest of
the current row. -/
def levRowLoop (c2 : Char) : List Char → List Nat → Nat → Nat → List Nat
  | [], _, _, _ => []
  | _ :: _, [], _, _ => []
  | c1 :: cs, pUp :: pRest, diag, left =>
    let v := min (min (left + 1) (pUp + 1)) (diag + (if c1 == c2 then 0 else 1))
    v :: levRowLoop c2 cs pRest pUp v

/-- The matrix of `levenshteinDistance`, row by row: `matrix[j]` is the
row for the first `j` characters of `str2`; row 0 is `[0..len str1]`. -/
def levFoldRows (str1 : List Char) (str2 : List Char) : List Nat :=
  (str2.foldl
    (fun (acc : List Nat × Nat) c2 =>
      let prev := acc.1
      let j := acc.2 + 1
      (j :: levRowLoop c2 str1 (prev.drop 1) (prev.headD 0) j, j))
    (List.range (str1.length + 1), 0)).1

/-- `levenshteinDistance str1 str2`: the bottom-right entry of the edit
distance matrix, as computed by the source's dynamic program. -/
def levenshteinDistance (str1 str2 : List Char) : Nat :=
  (levFoldRows str1 str2).getLastD 0

/-! ## Similarity scorer (`calculateFieldSimilarity`, part_010 lines 41-61) -/

/-- Normalization step of the similarity scorer:
`field.toLowerCase().replace(/[_-]/g, "")`. -/
def normalizeField (s : String) : List Char :=
  (s.data.map Char.toLower).filter (fun c => !(c == '_' || c == '-'))

/-- The fixed domain-keyword list of the similarity scorer. -/
def commonWords : List String :=
  ["id", "name", "email", "phone", "address", "date", "time", "user", "customer", "order"]

/-! Executable rational arithmetic. The standard `Rat.mul`/`Rat.sub`/`Rat.div`
are `@[irreducible]`, which blocks kernel evaluation of concrete runs, so the
few arithmetic operations the source needs are written out over `mkRat`
(cross-multiplication); comparisons and equality on `Rat` evaluate fine. -/

/-- Rational subtraction `a - b`, written out over `mkRat`. -/
def ratSub (a b : Rat) : Rat := mkRat (a.num * b.den - b.num * a.den) (a.den * b.den)

/-- Rational `q / 100` (the parser's percentage-to-decimal conversion). -/
def ratDiv100 (q : Rat) : Rat := mkRat q.num (q.den * 100)

/-- `Math.round(q * 100)` as an integer: multiply by 100, then round half up. -/
def ratPercentRound (q : Rat) : Int :=
  let p := mkRat (q.num * 100) q.den
  Int.fdiv (2 * p.num + p.den) (2 * p.den)

/-- `Math.max(0, q)` on rationals, written as an executable conditional. -/
def ratMax0 (q : Rat) : Rat := if q < mkRat 0 1 then mkRat 0 1 else q

/-- `Math.max` on naturals, written as an executable conditional. -/
def natMax (a b : Nat) : Nat := if a ≤ b then b else a

/-- `calculateFieldSimilarity` of the sample-mapping generator
(src/unnamed/part_010 lines 41-61): exact normalized equality 1.0,
containment 0.8, shared domain keyword 0.6, otherwise normalized
Levenshtein similarity. -/
def calculateFieldSimilarity (field1 field2 : String) : Rat :=
  let f1 := normalizeField field1
  let f2 := normalizeField field2
  if f1 = f2 then mkRat 1 1
  else if listContainsSub f1 f2 || listContainsSub f2 f1 then mkRat 4 5
  else if commonWords.any (fun w => listContainsSub f1 w.data && listContainsSub f2 w.data) then mkRat 3 5
  else ratMax0 (ratSub (mkRat 1 1) (mkRat (levenshteinDistance f1 f2) (natMax f1.length f2.length)))

/-- The instruction processor's own copy of the similarity heuristic
(src/lib/ai-mapping-processor.ts lines 534-547); unlike the generator's
version it returns 0 instead of a Levenshtein fallback. -/
def procFieldSimilarity (field1 field2 : String) : Rat :=
  let f1 := normalizeField field1
  let f2 := normalizeField field2
  if f1 = f2 then mkRat 1 1
  else if listContainsSub f1 f2 || listContainsSub f2 f1 then mkRat 4 5
  else if commonWords.any (fun w => listContainsSub f1 w.data && listContainsSub f2 w.data) then mkRat 3 5
  else mkRat 0 1

/-! ## Mapping store data model (src/unnamed/part_010, zustand store segment) -/

/-- `DynamicMapping.status` values. -/
inductive MStatus
  | active | pending | conflict | disabled
deriving DecidableEq, Repr

/-- `MappingConflict.type` values. -/
inductive ConflictType
  | duplicate_source | duplicate_target | circular_reference | type_mismatch
deriving DecidableEq, Repr

instance : BEq MStatus := ⟨fun a b => decide (a = b)⟩
instance : LawfulBEq MStatus := ⟨by intro a b h; exact of_decide_eq_true h, by intro a; simp [(· == ·)]⟩

instance : BEq ConflictType := ⟨fun a b => decide (a = b)⟩
instance : LawfulBEq ConflictType := ⟨by intro a b h; exact of_decide_eq_true h, by intro a; simp [(· == ·)]⟩

/-- A `DynamicMapping` record (`MappingSuggestion` plus the dynamic fields);
`transformation_type` is kept as a plain string, matching the loosely typed
string-enum usage of the source. -/
structure DynamicMapping where
  id : String
  source_field : String
  target_field : String
  transformation_type : String
  confidence : Rat
  reasoning : String
  transformation_logic : String
  potential_issues : List String
  status : MStatus
  user_modified : Bool
  user_command : Option String
  created_at : Nat
  updated_at : Nat
deriving DecidableEq, Repr

/-- A `MappingConflict` record. -/
structure MappingConflict where
  id : String
  type : ConflictType
  description : String
  affected_mappings : List String
  suggested_resolution : String
deriving DecidableEq, Repr

/-- The store state of `useMappingStore`. `nextId` is the id supply that
models the uniqueness `Date.now() + random` provides in the source. -/
structure MappingStore where
  mappings : List DynamicMapping
  conflicts : List MappingConflict
  documentId : Option String
  nextId : Nat
deriving DecidableEq, Repr

/-- The fields a caller passes to `addMapping`
(`Omit<DynamicMapping, "id" | "created_at" | "updated_at">`). -/
structure NewMapping where
  source_field : String
  target_field : String
  transformation_type : String
  confidence : Rat
  reasoning : String
  transformation_logic : String
  potential_issues : List String
  status : MStatus
  user_modified : Bool
  user_command : Option String
deriving DecidableEq, Repr

/-- A `Partial<DynamicMapping>` update object as used by `updateMapping` and
`resolveConflict` (the call sites never override `id`, `created_at` or
`updated_at`, so those fields are not modelled). -/
structure MappingUpdate where
  source_field : Option String := none
  target_field : Option String := none
  transformation_type : Option String := none
  confidence : Option Rat := none
  reasoning : Option String := none
  transformation_logic : Option String := none
  potential_issues : Option (List String) := none
  status : Option MStatus := none
  user_modified : Option Bool := none
  user_command : Option (Option String) := none
deriving DecidableEq, Repr

/-- Object spread `{ ...mapping, ...updates }`: every field present in the
update replaces the mapping's field. -/
def applyUpdates (m : DynamicMapping) (u : MappingUpdate) : DynamicMapping :=
  { m with
    source_field := u.source_field.getD m.source_field
    target_field := u.target_field.getD m.target_field
    transformation_type := u.transformation_type.getD m.transformation_type
    confidence := u.confidence.getD m.confidence
    reasoning := u.reasoning.getD m.reasoning
    transformation_logic := u.transformation_logic.getD m.transformation_logic
    potential_issues := u.potential_issues.getD m.potential_issues
    status := u.status.getD m.status
    user_modified := u.user_modified.getD m.user_modified
    user_command := u.user_command.getD m.user_command }

/-- `mapping.status === "active"`. -/
def isActiveB (m : DynamicMapping) : Bool := m.status == MStatus.active

/-! ### validateMappings (part_010 lines 286-334) -/

/-- Worker for `dedupFirst`: keep an element unless it was already seen. -/
def dedupFirstAux (seen : List String) : List String → List String
  | [] => []
  | s :: rest =>
    if s ∈ seen then dedupFirstAux seen rest
    else s :: dedupFirstAux (seen ++ [s]) rest

/-- First-occurrence deduplication: the key order of a JS `Map` built by
inserting the active mappings' fields in collection order. -/
def dedupFirst (l : List String) : List String := dedupFirstAux [] l

/-- The `source_field`s of active mappings, in collection order. -/
def activeSourceFields (ms : List DynamicMapping) : List String :=
  (ms.filter isActiveB).map (·.source_field)

/-- The `target_field`s of active mappings, in collection order. -/
def activeTargetFields (ms : List DynamicMapping) : List String :=
  (ms.filter isActiveB).map (·.target_field)

/-- The group a JS `Map` accumulates for source field `s`: ids of the active
mappings with that source field, in collection order. -/
def activeSourceIds (ms : List DynamicMapping) (s : String) : List String :=
  ((ms.filter isActiveB).filter (fun m => m.source_field == s)).map (·.id)

/-- The group for target field `t`. -/
def activeTargetIds (ms : List DynamicMapping) (t : String) : List String :=
  ((ms.filter isActiveB).filter (fun m => m.target_field == t)).map (·.id)

/-- The conflict `validateMappings` pushes for a duplicated source field. -/
def mkDupSourceConflict (s : String) (ids : List String) : MappingConflict :=
  { id := "conflict-duplicate-source-" ++ s
    type := ConflictType.duplicate_source
    description := "Multiple mappings found for source field \"" ++ s ++ "\""
    affected_mappings := ids
    suggested_resolution := "Keep the most recent mapping or merge the transformations" }

/-- The conflict `validateMappings` pushes for a duplicated target field. -/
def mkDupTargetConflict (t : String) (ids : List String) : MappingConflict :=
  { id := "conflict-duplicate-target-" ++ t
    type := ConflictType.duplicate_target
    description := "Multiple mappings found for target field \"" ++ t ++ "\""
    affected_mappings := ids
    suggested_resolution := "Combine source fields or use different target fields" }

/-- The duplicate-source block of `validateMappings`: one conflict per
source-field group with more than one member, in key insertion order. -/
def dupSourceConflicts (ms : List DynamicMapping) : List MappingConflict :=
  (dedupFirst (activeSourceFields ms)).filterMap (fun s =>
    if 1 < (activeSourceIds ms s).length
    then some (mkDupSourceConflict s (activeSourceIds ms s)) else none)

/-- The duplicate-target block of `validateMappings`. -/
def dupTargetConflicts (ms : List DynamicMapping) : List MappingConflict :=
  (dedupFirst (activeTargetFields ms)).filterMap (fun t =>
    if 1 < (activeTargetIds ms t).length
    then some (mkDupTargetConflict t (activeTargetIds ms t)) else none)

/-- `validateMappings()`: recomputes the conflict list from scratch from the
active mappings and replaces the store's conflict state. -/
def validateMappings (st : MappingStore) : MappingStore :=
  { st with conflicts := dupSourceConflicts st.mappings ++ dupTargetConflicts st.mappings }

/-! ### The other store actions -/

/-- `updateMapping(id, updates)`: spread the updates into the record with the
given id, stamp `updated_at` and force `user_modified`, then re-validate. -/
def updateMapping (st : MappingStore) (now : Nat) (mid : String) (u : MappingUpdate) :
    MappingStore :=
  validateMappings
    { st with
      mappings := st.mappings.map (fun m =>
        if m.id == mid then
          { applyUpdates m u with updated_at := now, user_modified := true }
        else m) }

/-- `addMapping(mapping)`: assign a fresh id and timestamps, append, validate;
returns the new id alongside the store. -/
def addMapping (st : MappingStore) (now : Nat) (nm : NewMapping) : String × MappingStore :=
  let mid := "mapping-" ++ toString st.nextId
  let record : DynamicMapping :=
    { id := mid
      source_field := nm.source_field
      target_field := nm.target_field
      transformation_type := nm.transformation_type
      confidence := nm.confidence
      reasoning := nm.reasoning
      transformation_logic := nm.transformation_logic
      potential_issues := nm.potential_issues
      status := nm.status
      user_modified := nm.user_modified
      user_command := nm.user_command
      created_at := now
      updated_at := now }
  (mid, validateMappings { st with mappings := st.mappings ++ [record], nextId := st.nextId + 1 })

/-- `removeMapping(id)`: drop the record with that id, and drop every conflict
whose `affected_mappings` contains the id; no re-validation. -/
def removeMapping (st : MappingStore) (mid : String) : MappingStore :=
  { st with
    mappings := st.mappings.filter (fun m => !(m.id == mid))
    conflicts := st.conflicts.filter (fun c => !(c.affected_mappings.contains mid)) }

/-- `resolveConflict`'s resolution argument. -/
inductive Resolution
  | accept | reject | modify
deriving DecidableEq, Repr

/-- `resolveConflict(conflictId, resolution, data?)`: look the conflict up; if
absent do nothing. `accept` re-activates the affected mappings, `reject`
disables them, `modify` (with data) spreads the data into them, re-activates
and stamps `updated_at` — without touching `user_modified`. The conflict
record is removed afterwards; no re-validation. -/
def resolveConflict (st : MappingStore) (now : Nat) (conflictId : String)
    (resolution : Resolution) (data : Option MappingUpdate) : MappingStore :=
  match st.conflicts.find? (fun c => c.id == conflictId) with
  | none => st
  | some c =>
    let updatedMappings :=
      match resolution, data with
      | Resolution.accept, _ =>
        st.mappings.map (fun m =>
          if c.affected_mappings.contains m.id then { m with status := MStatus.active } else m)
      | Resolution.reject, _ =>
        st.mappings.map (fun m =>
          if c.affected_mappings.contains m.id then { m with status := MStatus.disabled } else m)
      | Resolution.modify, some d =>
        st.mappings.map (fun m =>
          if c.affected_mappings.contains m.id then
            { applyUpdates m d with status := MStatus.active, updated_at := now }
          else m)
      | Resolution.modify, none => st.mappings
    { st with
      mappings := updatedMappings
      conflicts := st.conflicts.filter (fun c0 => !(c0.id == conflictId)) }

/-! ## Command parser (`MappingCommandParser`, src/unnamed/part_010 lines 931-1159)

Instructions are modelled as their whitespace-separated word lists. Each
regex of `COMMAND_PATTERNS` becomes a token matcher over the lower-cased
word list; the anchored-nowhere regex search becomes a scan over suffixes,
and each optional group (`(?:the\s+)?` etc.) becomes a
consume-or-backtrack alternative, matching the regex engine's behaviour
on instructions whose keywords and field tokens are whole, quote-free
words. -/

/-- `MappingCommand.type`. -/
inductive CommandType
  | create | update | delete | modify_transformation | set_confidence | unknown
deriving DecidableEq, Repr

/-- The raw tokens a pattern extracts before vocabulary resolution. -/
structure Extract where
  sourceField : Option String := none
  targetField : Option String := none
  transformationType : Option String := none
  confidence : Option Rat := none
deriving DecidableEq, Repr

/-- A parsed `MappingCommand`. -/
structure MappingCommand where
  type : CommandType
  sourceField : Option String := none
  targetField : Option String := none
  transformationType : Option String := none
  confidence : Option Rat := none
  originalCommand : String
deriving DecidableEq, Repr

/-- The result shape of `parseCommand`. -/
structure CommandParseResult where
  command : Option MappingCommand
  confidence : Rat
  ambiguities : List String
  suggestions : List String
deriving DecidableEq, Repr

/-- `X\s+to\s+Y`: a field token, the literal word `to`, a field token. -/
def matchXtoY : List String → Option (String × String)
  | x :: w :: y :: _ => if w == "to" then some (x, y) else none
  | _ => none

/-- After `map\s+`: optional `field\s+` (greedy, with backtracking), then
`X\s+to\s+Y`. -/
def matchAfterMap (ts : List String) : Option (String × String) :=
  match ts with
  | [] => none
  | w :: rest =>
    if w == "field" then
      match matchXtoY rest with
      | some r => some r
      | none => matchXtoY (w :: rest)
    else matchXtoY (w :: rest)

/-- Pattern 1 (`create`): `map (field)? X to Y`, anchored at this position. -/
def matchCreateMapAt : List String → Option (String × String)
  | w :: rest => if w == "map" then matchAfterMap rest else none
  | [] => none

/-- `X (to)? Y` with backtracking on the optional `to`
(pattern 2's tail: `...mapping (from)? X (to)? Y`). -/
def matchXoptToY : List String → Option (String × String)
  | x :: w :: y :: _ => if w == "to" then some (x, y) else some (x, w)
  | [x, w] => if w == "to" then some (x, "to") else some (x, w)
  | _ => none

/-- After `create (a)? mapping`: optional `from`, then `X (to)? Y`. -/
def matchCreateAfterMapping (ts : List String) : Option (String × String) :=
  match ts with
  | [] => none
  | w :: rest =>
    if w == "from" then
      match matchXoptToY rest with
      | some r => some r
      | none => matchXoptToY (w :: rest)
    else matchXoptToY (w :: rest)

/-- Pattern 2 (`create`): `create (a)? mapping (from)? X (to)? Y`. -/
def matchCreateAt : List String → Option (String × String)
  | w :: rest =>
    if w == "create" then
      match rest with
      | w2 :: rest2 =>
        if w2 == "a" then
          match rest2 with
          | w3 :: rest3 => if w3 == "mapping" then matchCreateAfterMapping rest3 else none
          | [] => none
        else if w2 == "mapping" then matchCreateAfterMapping rest2
        else none
      | [] => none
    else none
  | [] => none

/-- Pattern 3 (`create`): `connect X (with|to) Y`. -/
def matchConnectAt : List String → Option (String × String)
  | w :: x :: w2 :: y :: _ =>
    if w == "connect" && (w2 == "with" || w2 == "to") then some (x, y) else none
  | _ => none

/-- After `update|change|modify (the)? mapping`: optional `for`, then
`X to Y`. -/
def matchUpdateAfterMapping (ts : List String) : Option (String × String) :=
  match ts with
  | [] => none
  | w :: rest =>
    if w == "for" then
      match matchXtoY rest with
      | some r => some r
      | none => matchXtoY (w :: rest)
    else matchXtoY (w :: rest)

/-- Pattern 4 (`update`): `(update|change|modify) (the)? mapping (for)? X to Y`. -/
def matchUpdateAt : List String → Option (String × String)
  | w :: rest =>
    if w == "update" || w == "change" || w == "modify" then
      match rest with
      | w2 :: rest2 =>
        if w2 == "the" then
          match rest2 with
          | w3 :: rest3 => if w3 == "mapping" then matchUpdateAfterMapping rest3 else none
          | [] => none
        else if w2 == "mapping" then matchUpdateAfterMapping rest2
        else none
      | [] => none
    else none
  | [] => none

/-- After `delete|remove|unmap (the)? mapping`: optional `for`, then one
field token. -/
def matchDeleteAfterMapping : List String → Option String
  | [] => none
  | w :: rest =>
    if w == "for" then
      match rest with
      | x :: _ => some x
      | [] => some w
    else some w

/-- Pattern 5 (`delete`): `(delete|remove|unmap) (the)? mapping (for)? X`. -/
def matchDeleteAt : List String → Option String
  | w :: rest =>
    if w == "delete" || w == "remove" || w == "unmap" then
      match rest with
      | w2 :: rest2 =>
        if w2 == "the" then
          match rest2 with
          | w3 :: rest3 => if w3 == "mapping" then matchDeleteAfterMapping rest3 else none
          | [] => none
        else if w2 == "mapping" then matchDeleteAfterMapping rest2
        else none
      | [] => none
    else none
  | [] => none

/-- The longest `[a-z_]+` prefix of a token (the transformation-type capture). -/
def lowerAlphaPrefixOf (s : String) : String :=
  ⟨s.data.takeWhile (fun c => ('a' ≤ c && c ≤ 'z') || c == '_')⟩

/-- `X\s+to\s+([a-z_]+)` for pattern 6. -/
def matchXtoType : List String → Option (String × String)
  | x :: w :: t :: _ =>
    if w == "to" then
      let tp := lowerAlphaPrefixOf t
      if tp.data.isEmpty then none else some (x, tp)
    else none
  | _ => none

/-- After `set|change (the)? transformation`: optional `type`, optional
`for`, then `X to TYPE`. -/
def matchTransTail (ts : List String) : Option (String × String) :=
  let forStep : List String → Option (String × String) := fun ts2 =>
    match ts2 with
    | [] => none
    | w :: rest =>
      if w == "for" then
        match matchXtoType rest with
        | some r => some r
        | none => matchXtoType (w :: rest)
      else matchXtoType (w :: rest)
  match ts with
  | [] => none
  | w :: rest =>
    if w == "type" then
      match forStep rest with
      | some r => some r
      | none => forStep (w :: rest)
    else forStep (w :: rest)

/-- Pattern 6 (`modify_transformation`):
`(set|change) (the)? transformation (type)? (for)? X to TYPE`. -/
def matchTransAt : List String → Option (String × String)
  | w :: rest =>
    if w == "set" || w == "change" then
      match rest with
      | w2 :: rest2 =>
        if w2 == "the" then
          match rest2 with
          | w3 :: rest3 => if w3 == "transformation" then matchTransTail rest3 else none
          | [] => none
        else if w2 == "transformation" then matchTransTail rest2
        else none
      | [] => none
    else none
  | [] => none

/-- The numeric capture `(\d+(?:\.\d+)?)` of pattern 7, as a rational. -/
def parseConfTok (s : String) : Option Rat :=
  let ds := s.data.takeWhile Char.isDigit
  if ds.isEmpty then none
  else
    let ip : Nat := ds.foldl (fun n c => n * 10 + (c.toNat - 48)) 0
    match s.data.drop ds.length with
    | '.' :: rest2 =>
      let fs := rest2.takeWhile Char.isDigit
      if fs.isEmpty then some (mkRat ip 1)
      else
        let fp : Nat := fs.foldl (fun n c => n * 10 + (c.toNat - 48)) 0
        some (mkRat (ip * 10 ^ fs.length + fp) (10 ^ fs.length))
    | _ => some (mkRat ip 1)

/-- `X\s+to\s+(\d+(?:\.\d+)?)` for pattern 7. -/
def matchXtoNum : List String → Option (String × Rat)
  | x :: w :: n :: _ =>
    if w == "to" then
      match parseConfTok n with
      | some r => some (x, r)
      | none => none
    else none
  | _ => none

/-- After `set|change (the)? confidence`: optional `for`, then `X to N`. -/
def matchConfTail (ts : List String) : Option (String × Rat) :=
  match ts with
  | [] => none
  | w :: rest =>
    if w == "for" then
      match matchXtoNum rest with
      | some r => some r
      | none => matchXtoNum (w :: rest)
    else matchXtoNum (w :: rest)

/-- Pattern 7 (`set_confidence`): `(set|change) (the)? confidence (for)? X to N`. -/
def matchConfAt : List String → Option (String × Rat)
  | w :: rest =>
    if w == "set" || w == "change" then
      match rest with
      | w2 :: rest2 =>
        if w2 == "the" then
          match rest2 with
          | w3 :: rest3 => if w3 == "confidence" then matchConfTail rest3 else none
          | [] => none
        else if w2 == "confidence" then matchConfTail rest2
        else none
      | [] => none
    else none
  | [] => none

/-- The regex engine's search: try the anchored matcher at every suffix,
left to right. -/
def scanToks {α : Type} (f : List String → Option α) : List String → Option α
  | [] => none
  | t :: rest =>
    match f (t :: rest) with
    | some r => some r
    | none => scanToks f rest

/-- `COMMAND_PATTERNS` in declaration order: the first pattern that matches
anywhere in the instruction wins. -/
def matchPatterns (toks : List String) : Option (CommandType × Extract) :=
  match scanToks matchCreateMapAt toks with
  | some (x, y) => some (CommandType.create, { sourceField := some x, targetField := some y })
  | none =>
  match scanToks matchCreateAt toks with
  | some (x, y) => some (CommandType.create, { sourceField := some x, targetField := some y })
  | none =>
  match scanToks matchConnectAt toks with
  | some (x, y) => some (CommandType.create, { sourceField := some x, targetField := some y })
  | none =>
  match scanToks matchUpdateAt toks with
  | some (x, y) => some (CommandType.update, { sourceField := some x, targetField := some y })
  | none =>
  match scanToks matchDeleteAt toks with
  | some x => some (CommandType.delete, { sourceField := some x })
  | none =>
  match scanToks matchTransAt toks with
  | some (x, t) =>
    some (CommandType.modify_transformation, { sourceField := some x, transformationType := some t })
  | none =>
  match scanToks matchConfAt toks with
  | some (x, n) => some (CommandType.set_confidence, { sourceField := some x, confidence := some n })
  | none => none

/-! ### Field resolution and `parseCommand` -/

/-- The source/target vocabularies handed to the parser. -/
structure FieldVocab where
  source : List String
  target : List String
deriving DecidableEq, Repr

/-- `availableFields.find(f => f.toLowerCase() === token.toLowerCase())`:
the first case-insensitive exact match, i.e. the canonical spelling. -/
def findExactField (fields : List String) (tok : String) : Option String :=
  fields.find? (fun f => lowerStr f == lowerStr tok)

/-- The similarity filter of `findSimilarFields`: substring containment in
either direction, or Levenshtein distance at most 2. -/
def isSimilarField (tok f : String) : Bool :=
  let fl := lowerStr f
  let tl := lowerStr tok
  containsStr fl tl || containsStr tl fl ||
    decide (levenshteinDistance tl.data fl.data ≤ 2)

/-- `findSimilarFields(target, fields)`: keep similar candidates, cap at 3. -/
def findSimilarFields (tok : String) (fields : List String) : List String :=
  (fields.filter (isSimilarField tok)).take 3

/-- `fields.join(", ")`. -/
def joinComma : List String → String
  | [] => ""
  | [s] => s
  | s :: rest => s ++ ", " ++ joinComma rest

/-- `toks.intercalate " "`: the instruction string back from its word list
(`originalCommand` and the substring checks act on this). -/
def joinSpace : List String → String
  | [] => ""
  | [s] => s
  | s :: rest => s ++ " " ++ joinSpace rest

/-- Resolution of one extracted field token against its vocabulary
(parseCommand lines 1031-1055): an exact case-insensitive match is replaced
by the canonical spelling; otherwise an ambiguity plus a did-you-mean
suggestion are recorded — but only when at least one similar candidate
exists. Returns (resolved token, ambiguities, suggestions). -/
def resolveField (label : String) (fields : List String) (tok : String) :
    String × List String × List String :=
  match findExactField fields tok with
  | some canon => (canon, [], [])
  | none =>
    let sim := findSimilarFields tok fields
    if sim.isEmpty then (tok, [], [])
    else
      (tok, [label ++ " field \"" ++ tok ++ "\" not found"],
        ["Did you mean: " ++ joinComma sim ++ "?"])

/-- The whole resolution stage of `parseCommand`: source token, target
token, then confidence-range validation. -/
def resolveExtract (vocab : FieldVocab) (e : Extract) :
    Extract × List String × List String :=
  let rs := match e.sourceField with
    | some tok => let r := resolveField "Source" vocab.source tok; (some r.1, r.2.1, r.2.2)
    | none => (none, [], [])
  let rt := match e.targetField with
    | some tok => let r := resolveField "Target" vocab.target tok; (some r.1, r.2.1, r.2.2)
    | none => (none, [], [])
  let c1 := match e.confidence with
    | some c => some (if mkRat 1 1 < c then ratDiv100 c else c)
    | none => none
  let a3 := match c1 with
    | some c =>
      if c < mkRat 0 1 || mkRat 1 1 < c then
        ["Confidence must be between 0 and 1 (or 0% and 100%)"]
      else []
    | none => []
  ({ e with sourceField := rs.1, targetField := rt.1, confidence := c1 },
    rs.2.1 ++ rt.2.1 ++ a3, rs.2.2 ++ rt.2.2)

/-- `extractFieldMentions` of the parser: known fields (source then target)
whose lower-cased text occurs in the lower-cased instruction, first
occurrences kept (`[...new Set(mentions)]`). -/
def parserFieldMentions (orig : String) (vocab : FieldVocab) : List String :=
  dedupFirst
    ((vocab.source ++ vocab.target).filter (fun f =>
      containsStr (lowerStr orig) (lowerStr f)))

/-- `MappingCommandParser.parseCommand`: normalize, try the pattern chain,
resolve extracted tokens, apply the confidence policy (0.9 without
ambiguities, 0.6 with); with no structural match, fall back to field
mentions (`unknown`, 0.3) or the no-command result (confidence 0). -/
def parseCommand (toks : List String) (vocab : FieldVocab) : CommandParseResult :=
  let norm := toks.map lowerStr
  let orig := joinSpace toks
  match matchPatterns norm with
  | some (ty, ext) =>
    let r := resolveExtract vocab ext
    { command := some
        { type := ty
          sourceField := r.1.sourceField
          targetField := r.1.targetField
          transformationType := r.1.transformationType
          confidence := r.1.confidence
          originalCommand := orig }
      confidence := if r.2.1.isEmpty then mkRat 9 10 else mkRat 3 5
      ambiguities := r.2.1
      suggestions := r.2.2 }
  | none =>
    let mentions := parserFieldMentions orig vocab
    if mentions.isEmpty then
      { command := none
        confidence := mkRat 0 1
        ambiguities := ["No mapping command detected"]
        suggestions :=
          ["Try: \"Map field1 to field2\"",
           "Try: \"Delete mapping for field1\"",
           "Try: \"Update mapping for field1 to field3\""] }
    else
      { command := some { type := CommandType.unknown, originalCommand := orig }
        confidence := mkRat 3 10
        ambiguities := ["Command not recognized"]
        suggestions :=
          ["Try: \"Map [source field] to [target field]\"",
           "Try: \"Delete mapping for [field name]\"",
           "Try: \"Change transformation for [field] to [type]\"",
           "Detected fields: " ++ joinComma mentions] }

/-! ## Instruction processor (`AIMappingProcessor`, src/lib/ai-mapping-processor.ts) -/

/-- `MappingChange.type`. -/
inductive ChangeType
  | created | updated | deleted | modified
deriving DecidableEq, Repr

instance : BEq ChangeType := ⟨fun a b => decide (a = b)⟩
instance : LawfulBEq ChangeType :=
  ⟨by intro a b h; exact of_decide_eq_true h, by intro a; simp [(· == ·)]⟩

/-- One applied change, as reported in `AIProcessingResult.appliedChanges`. -/
structure MappingChange where
  type : ChangeType
  mappingId : Option String := none
  sourceField : String
  targetField : Option String := none
  details : String
deriving DecidableEq, Repr

/-- `AIProcessingResult`; absent optional fields are the empty list /
`false` / `none`. -/
structure AIProcessingResult where
  success : Bool
  message : String
  appliedChanges : List MappingChange
  suggestions : List String := []
  needsClarification : Bool := false
  clarificationQuestion : Option String := none
deriving DecidableEq, Repr

/-- The `context` argument of `processUserInstruction`. -/
structure Ctx where
  sourceFields : List String
  targetFields : List String
  currentMappings : List DynamicMapping
deriving Repr

/-- The store mutations `executeCommand` performs, abstracted so that the
`try`/`catch` at its end can be stated over arbitrary (also failing)
operations; the real operations (`okOps`) never fail. -/
structure StoreOps where
  addM : MappingStore → Nat → NewMapping → Except String (String × MappingStore)
  updateM : MappingStore → Nat → String → MappingUpdate → Except String MappingStore
  removeM : MappingStore → String → Except String MappingStore

/-- The actual store operations, which never throw. -/
def okOps : StoreOps where
  addM := fun st now nm => Except.ok (addMapping st now nm)
  updateM := fun st now mid u => Except.ok (updateMapping st now mid u)
  removeM := fun st mid => Except.ok (removeMapping st mid)

/-- The `❌ Could not execute command` result the switch falls through to. -/
def couldNotExecute : AIProcessingResult :=
  { success := false, message := "❌ Could not execute command", appliedChanges := [] }

/-- The body of `executeCommand`'s `try` block (lines 105-262): the switch
over the command type. Store lookups are made against the caller-provided
`currentMappings`; mutations against the store. An error outcome carries
the store as mutated so far. -/
def executeBodyWith (ops : StoreOps) (cmd : MappingCommand) (cur : List DynamicMapping)
    (st : MappingStore) (now : Nat) : Except String AIProcessingResult × MappingStore :=
  match cmd.type with
  | CommandType.create =>
    match cmd.sourceField, cmd.targetField with
    | some s, some t =>
      match cur.find? (fun m => m.source_field == s && m.status == MStatus.active) with
      | some existing =>
        match ops.updateM st now existing.id
            { target_field := some t
              user_command := some (some cmd.originalCommand)
              reasoning := some ("Updated via AI command: \"" ++ cmd.originalCommand ++ "\"") } with
        | Except.ok st1 =>
          (Except.ok
            { success := true
              message := "✅ Updated mapping: " ++ s ++ " → " ++ t
              appliedChanges :=
                [{ type := ChangeType.updated
                   mappingId := some existing.id
                   sourceField := s
                   targetField := some t
                   details := "Updated mapping from " ++ existing.target_field ++ " to " ++ t }] },
            st1)
        | Except.error e => (Except.error e, st)
      | none =>
        match ops.addM st now
            { source_field := s
              target_field := t
              transformation_type := "direct_mapping"
              confidence := mkRat 17 20
              reasoning := "AI-created mapping via command: \"" ++ cmd.originalCommand ++ "\""
              transformation_logic := s ++ " -> " ++ t
              potential_issues := []
              status := MStatus.active
              user_modified := true
              user_command := some cmd.originalCommand } with
        | Except.ok (newId, st1) =>
          (Except.ok
            { success := true
              message := "✅ Created mapping: " ++ s ++ " → " ++ t
              appliedChanges :=
                [{ type := ChangeType.created
                   mappingId := some newId
                   sourceField := s
                   targetField := some t
                   details := "Created new mapping" }] },
            st1)
        | Except.error e => (Except.error e, st)
    | _, _ => (Except.ok couldNotExecute, st)
  | CommandType.delete =>
    match cmd.sourceField with
    | some s =>
      match cur.find? (fun m => m.source_field == s && m.status == MStatus.active) with
      | some existing =>
        match ops.removeM st existing.id with
        | Except.ok st1 =>
          (Except.ok
            { success := true
              message := "✅ Deleted mapping for: " ++ s
              appliedChanges :=
                [{ type := ChangeType.deleted
                   mappingId := some existing.id
                   sourceField := s
                   targetField := some existing.target_field
                   details := "Deleted mapping" }] },
            st1)
        | Except.error e => (Except.error e, st)
      | none =>
        (Except.ok
          { success := false
            message := "❌ No mapping found for \"" ++ s ++ "\""
            appliedChanges := []
            suggestions :=
              ["Available source fields: " ++ joinComma (cur.map (·.source_field))] },
          st)
    | none => (Except.ok couldNotExecute, st)
  | CommandType.modify_transformation =>
    match cmd.sourceField, cmd.transformationType with
    | some s, some tt =>
      match cur.find? (fun m => m.source_field == s && m.status == MStatus.active) with
      | some existing =>
        match ops.updateM st now existing.id
            { transformation_type := some tt
              user_command := some (some cmd.originalCommand)
              reasoning := some ("Transformation updated via AI: \"" ++ cmd.originalCommand ++ "\"") } with
        | Except.ok st1 =>
          (Except.ok
            { success := true
              message := "✅ Updated transformation for " ++ s ++ " to " ++ tt
              appliedChanges :=
                [{ type := ChangeType.modified
                   mappingId := some existing.id
                   sourceField := s
                   targetField := some existing.target_field
                   details := "Changed transformation to " ++ tt }] },
            st1)
        | Except.error e => (Except.error e, st)
      | none => (Except.ok couldNotExecute, st)
    | _, _ => (Except.ok couldNotExecute, st)
  | CommandType.set_confidence =>
    match cmd.sourceField, cmd.confidence with
    | some s, some c =>
      match cur.find? (fun m => m.source_field == s && m.status == MStatus.active) with
      | some existing =>
        match ops.updateM st now existing.id
            { confidence := some c
              user_command := some (some cmd.originalCommand) } with
        | Except.ok st1 =>
          (Except.ok
            { success := true
              message := "✅ Set confidence for " ++ s ++ " to "
                ++ toString (ratPercentRound c) ++ "%"
              appliedChanges :=
                [{ type := ChangeType.modified
                   mappingId := some existing.id
                   sourceField := s
                   targetField := some existing.target_field
                   details := "Set confidence to " ++ toString (ratPercentRound c) ++ "%" }] },
            st1)
        | Except.error e => (Except.error e, st)
      | none => (Except.ok couldNotExecute, st)
    | _, _ => (Except.ok couldNotExecute, st)
  | CommandType.update => (Except.ok couldNotExecute, st)
  | CommandType.unknown => (Except.ok couldNotExecute, st)

/-- `executeCommand` with explicit store operations: the body wrapped in the
source's `try`/`catch`, which converts any internal error into a failed
result carrying the error's message. -/
def executeCommandWith (ops : StoreOps) (cmd : MappingCommand) (cur : List DynamicMapping)
    (st : MappingStore) (now : Nat) : AIProcessingResult × MappingStore :=
  match executeBodyWith ops cmd cur st now with
  | (Except.ok r, st1) => (r, st1)
  | (Except.error e, st1) =>
    ({ success := false
       message := "❌ Error executing command: " ++ e
       appliedChanges := [] }, st1)

/-- `executeCommand` as the processor runs it, over the real store operations. -/
def executeCommand (cmd : MappingCommand) (cur : List DynamicMapping)
    (st : MappingStore) (now : Nat) : AIProcessingResult × MappingStore :=
  executeCommandWith okOps cmd cur st now

/-! ### Multi-command extraction and contextual heuristics -/

/-- A word is one of the textual separators `and` / `then` / `also`
(the `\sand\s` etc. alternatives of the split regex). -/
def isSeparatorTok (t : String) : Bool := t == "and" || t == "then" || t == "also"

/-- Explode each word at commas, keeping `none` markers for the comma
boundaries (the `,` alternative of the split regex). -/
def explodeCommas (toks : List String) : List (Option String) :=
  toks.flatMap (fun t =>
    ((t.data.splitOn ',').map (fun cs => some (⟨cs⟩ : String))).intersperse none)

/-- `instruction.split(/,|\sand\s|\sthen\s|\salso\s/)` on the token list:
split at comma boundaries and separator words, dropping empty fragments
inside each part. -/
def splitParts (toks : List String) : List (List String) :=
  (List.splitOnP
      (fun x => match x with
        | none => true
        | some w => isSeparatorTok w)
      (explodeCommas toks)).map
    (fun g => (g.filterMap id).filter (fun s => !s.isEmpty))

/-- `extractMultipleCommands`: parse every fragment independently and keep
the commands whose parse confidence exceeds 0.5. -/
def extractMultipleCommands (toks : List String) (vocab : FieldVocab) :
    List MappingCommand :=
  (splitParts toks).filterMap (fun p =>
    let r := parseCommand p vocab
    match r.command with
    | some c => if mkRat 1 2 < r.confidence then some c else none
    | none => none)

/-- Execute a list of commands in order against the store, all of them
looking existing mappings up in the same caller-provided list. -/
def execCommandsFold (cmds : List MappingCommand) (cur : List DynamicMapping)
    (st : MappingStore) (now : Nat) : List AIProcessingResult × MappingStore :=
  cmds.foldl
    (fun (acc : List AIProcessingResult × MappingStore) c =>
      let r := executeCommand c cur acc.2 now
      (acc.1 ++ [r.1], r.2))
    ([], st)

/-- `findBestFieldMatch`: highest-scoring target field under the processor's
similarity copy, ties broken by first occurrence; an empty candidate list
yields score 0 (and its placeholder field is never used, since 0 fails
every threshold). -/
def findBestFieldMatch (sourceField : String) (targetFields : List String) :
    String × Rat :=
  targetFields.foldl
    (fun (acc : String × Rat) t =>
      let score := procFieldSimilarity sourceField t
      if acc.2 < score then (t, score) else acc)
    (targetFields.headD "", mkRat 0 1)

/-- Worker of `handleBulkMapping`: walk the capped source-field list,
creating a mapping for every best match scoring above 0.6. -/
def bulkMapGo (instr : String) (targetFields : List String) :
    List String → List MappingChange × MappingStore → Nat → List MappingChange × MappingStore
  | [], acc, _ => acc
  | s :: rest, acc, now =>
    let best := findBestFieldMatch s targetFields
    if mkRat 3 5 < best.2 then
      let r := addMapping acc.2 now
        { source_field := s
          target_field := best.1
          transformation_type := "direct_mapping"
          confidence := best.2
          reasoning := "Bulk mapping via AI: \"" ++ instr ++ "\""
          transformation_logic := s ++ " -> " ++ best.1
          potential_issues := []
          status := MStatus.active
          user_modified := true
          user_command := some instr }
      bulkMapGo instr targetFields rest
        (acc.1 ++
          [{ type := ChangeType.created
             mappingId := some r.1
             sourceField := s
             targetField := some best.1
             details := "Auto-mapped based on similarity" }],
          r.2) now
    else bulkMapGo instr targetFields rest acc now

/-- `handleBulkMapping` (lines 385-429): auto-map up to 5 source fields by
similarity. -/
def handleBulkMapping (toks : List String) (ctx : Ctx) (st : MappingStore) (now : Nat) :
    AIProcessingResult × MappingStore :=
  let r := bulkMapGo (joinSpace toks) ctx.targetFields (ctx.sourceFields.take 5) ([], st) now
  ({ success := decide (0 < r.1.length)
     message := "✅ Created " ++ toString r.1.length ++ " automatic mappings"
     appliedChanges := r.1 }, r.2)

/-- `extractFieldMentions` of the processor: source and target fields whose
lower-cased text occurs in the lower-cased instruction (no deduplication). -/
def procFieldMentions (instr : String) (sourceFields targetFields : List String) :
    List String × List String :=
  (sourceFields.filter (fun f => containsStr (lowerStr instr) (lowerStr f)),
   targetFields.filter (fun f => containsStr (lowerStr instr) (lowerStr f)))

/-- `handleSimilarFieldMapping` (lines 431-467): never mutates; proposes
similar source fields, or asks for a field. -/
def handleSimilarFieldMapping (toks : List String) (ctx : Ctx) : AIProcessingResult :=
  let mentions := procFieldMentions (joinSpace toks) ctx.sourceFields ctx.targetFields
  match mentions.1 with
  | [] =>
    { success := false
      message := "Please specify which field you want to find similar mappings for."
      appliedChanges := [] }
  | ref :: _ =>
    let sims := ctx.sourceFields.filter
      (fun f => mkRat 3 5 < procFieldSimilarity ref f && f != ref)
    if sims.isEmpty then
      { success := false
        message := "No similar fields found for \"" ++ ref ++ "\""
        appliedChanges := [] }
    else
      { success := false
        message := "Found similar fields: " ++ joinComma sims
        appliedChanges := []
        needsClarification := true
        clarificationQuestion :=
          some ("Should I create mappings for these similar fields: " ++ joinComma sims ++ "?") }

/-- Worker of `handleBulkRemoval`: remove each listed mapping from the store
and record a `deleted` change for it. -/
def bulkRemoveGo : List DynamicMapping → List MappingChange × MappingStore →
    List MappingChange × MappingStore
  | [], acc => acc
  | m :: rest, acc =>
    bulkRemoveGo rest
      (acc.1 ++
        [{ type := ChangeType.deleted
           mappingId := some m.id
           sourceField := m.source_field
           targetField := some m.target_field
           details := "Bulk removal" }],
        removeMapping acc.2 m.id)

/-- `handleBulkRemoval` (lines 469-492): remove every currently active
mapping of the caller's context from the store. -/
def handleBulkRemoval (ctx : Ctx) (st : MappingStore) : AIProcessingResult × MappingStore :=
  let toRemove := ctx.currentMappings.filter isActiveB
  let r := bulkRemoveGo toRemove ([], st)
  ({ success := decide (0 < r.1.length)
     message := "✅ Removed " ++ toString r.1.length ++ " mappings"
     appliedChanges := r.1 }, r.2)

/-- `contextualInterpretation` (lines 332-383): keyword heuristics in source
order — bulk mapping, similar-field proposal, bulk removal, field-mention
clarification, generic failure. -/
def contextualInterpretation (toks : List String) (ctx : Ctx) (st : MappingStore)
    (now : Nat) : AIProcessingResult × MappingStore :=
  let lower := lowerStr (joinSpace toks)
  if containsStr lower "all" && containsStr lower "map" then
    handleBulkMapping toks ctx st now
  else if containsStr lower "similar" || containsStr lower "like" then
    (handleSimilarFieldMapping toks ctx, st)
  else if containsStr lower "remove" || containsStr lower "clear" then
    handleBulkRemoval ctx st
  else
    let mentions := procFieldMentions (joinSpace toks) ctx.sourceFields ctx.targetFields
    if !mentions.1.isEmpty && !mentions.2.isEmpty then
      ({ success := false
         message := "I detected fields but need clarification on the mapping action."
         appliedChanges := []
         needsClarification := true
         clarificationQuestion :=
           some ("Do you want to map " ++ joinComma mentions.1 ++ " to "
             ++ joinComma mentions.2 ++ "?")
         suggestions :=
           ["Try: \"Map " ++ mentions.1.headD "" ++ " to " ++ mentions.2.headD "" ++ "\"",
            "Try: \"Delete mapping for " ++ mentions.1.headD "" ++ "\""] }, st)
    else
      -- Source text: "I couldn't understand that instruction. ..." (the
      -- contraction is spelt out here).
      ({ success := false
         message := "I could not understand that instruction. Please be more specific."
         appliedChanges := []
         suggestions :=
           ["Try: \"Map [source field] to [target field]\"",
            "Try: \"Delete mapping for [field name]\"",
            "Try: \"Map all customer fields to user fields\""] }, st)

/-- `aiEnhancedProcessing` (lines 272-307): multi-command extraction first,
contextual interpretation otherwise. -/
def aiEnhancedProcessing (toks : List String) (ctx : Ctx) (st : MappingStore)
    (now : Nat) : AIProcessingResult × MappingStore :=
  let cmds := extractMultipleCommands toks ⟨ctx.sourceFields, ctx.targetFields⟩
  if cmds.isEmpty then contextualInterpretation toks ctx st now
  else
    let r := execCommandsFold cmds ctx.currentMappings st now
    let successCount := (r.1.filter (·.success)).length
    ({ success := decide (0 < successCount)
       message := "✅ Applied " ++ toString successCount ++ "/"
         ++ toString r.1.length ++ " mapping changes"
       appliedChanges := (r.1.map (·.appliedChanges)).flatten
       suggestions := (r.1.map (·.suggestions)).flatten }, r.2)

/-- `processInstruction` (lines 72-95): direct parse wins above confidence
0.6; otherwise the AI-enhanced path. -/
def processInstruction (toks : List String) (ctx : Ctx) (st : MappingStore)
    (now : Nat) : AIProcessingResult × MappingStore :=
  let pr := parseCommand toks ⟨ctx.sourceFields, ctx.targetFields⟩
  match pr.command with
  | some cmd =>
    if mkRat 3 5 < pr.confidence then executeCommand cmd ctx.currentMappings st now
    else aiEnhancedProcessing toks ctx st now
  | none => aiEnhancedProcessing toks ctx st now

/-! ### The single-flight wrapper `processUserInstruction` (lines 33-70) -/

/-- The processor's private state: the instruction queue and the
is-processing flag. -/
structure ProcessorState where
  queue : List (List String)
  isProcessing : Bool
deriving DecidableEq, Repr

/-- Everything one call of `processUserInstruction` produces: the returned
result, the processor state and store afterwards, and the instructions a
deferred `setTimeout` retry was scheduled for. -/
structure ProcOutcome where
  result : AIProcessingResult
  procState : ProcessorState
  store : MappingStore
  scheduled : List (List String)
deriving Repr

/-- `processUserInstruction`: enqueue; if busy, reject immediately with the
please-wait result; otherwise process, dequeue every copy of this
instruction, clear the flag, and schedule a deferred retry of the queue
head if the queue is non-empty. -/
def processUserInstruction (ps : ProcessorState) (toks : List String) (ctx : Ctx)
    (st : MappingStore) (now : Nat) : ProcOutcome :=
  let q1 := ps.queue ++ [toks]
  if ps.isProcessing then
    { result :=
        { success := false
          message := "Processing previous instruction, please wait..."
          appliedChanges := [] }
      procState := { queue := q1, isProcessing := true }
      store := st
      scheduled := [] }
  else
    let r := processInstruction toks ctx st now
    let q2 := q1.filter (fun i => i != toks)
    { result := r.1
      procState := { queue := q2, isProcessing := false }
      store := r.2
      scheduled := match q2 with | [] => [] | i :: _ => [i] }

/-! ## Auxiliary definitions for the claim theorems and their concrete scenarios -/

/-- Discriminator for `Except`: did the computation succeed? -/
def exceptIsOk {e a : Type} : Except e a → Bool
  | Except.ok _ => true
  | Except.error _ => false

/-- A store-operation implementation in which every mutation throws, for
exercising the catch branch. -/
def boomOps : StoreOps where
  addM := fun _ _ _ => Except.error "boom"
  updateM := fun _ _ _ _ => Except.error "boom"
  removeM := fun _ _ => Except.error "boom"

/-- Recognizes the duplicate-source conflict for source field `s` by its
type and its stable, field-derived id. -/
def isDupSourceFor (s : String) (c : MappingConflict) : Bool :=
  c.type == ConflictType.duplicate_source && c.id == "conflict-duplicate-source-" ++ s

/-- Concrete store for the C4 counterexample: two mappings and one conflict
affecting both of them. -/
def c4Store : MappingStore :=
  { mappings :=
      [{ id := "a", source_field := "s", target_field := "t1",
         transformation_type := "direct_mapping", confidence := mkRat 1 1,
         reasoning := "", transformation_logic := "", potential_issues := [],
         status := MStatus.active, user_modified := false, user_command := none,
         created_at := 0, updated_at := 0 },
       { id := "b", source_field := "s", target_field := "t2",
         transformation_type := "direct_mapping", confidence := mkRat 1 1,
         reasoning := "", transformation_logic := "", potential_issues := [],
         status := MStatus.active, user_modified := false, user_command := none,
         created_at := 0, updated_at := 0 }]
    conflicts :=
      [{ id := "conflict-duplicate-source-s", type := ConflictType.duplicate_source,
         description := "d", affected_mappings := ["a", "b"],
         suggested_resolution := "sr" }]
    documentId := none
    nextId := 0 }

/-- Concrete store for the C1 witness: two active mappings sharing source
field `s` plus one active mapping with a different source field. -/
def c1Store : MappingStore :=
  { mappings :=
      [{ id := "w1", source_field := "s", target_field := "t1",
         transformation_type := "direct_mapping", confidence := mkRat 1 1,
         reasoning := "", transformation_logic := "", potential_issues := [],
         status := MStatus.active, user_modified := false, user_command := none,
         created_at := 0, updated_at := 0 },
       { id := "w2", source_field := "u", target_field := "t2",
         transformation_type := "direct_mapping", confidence := mkRat 1 1,
         reasoning := "", transformation_logic := "", potential_issues := [],
         status := MStatus.active, user_modified := false, user_command := none,
         created_at := 0, updated_at := 0 },
       { id := "w3", source_field := "s", target_field := "t3",
         transformation_type := "direct_mapping", confidence := mkRat 1 1,
         reasoning := "", transformation_logic := "", potential_issues := [],
         status := MStatus.active, user_modified := false, user_command := none,
         created_at := 0, updated_at := 0 }]
    conflicts := []
    documentId := none
    nextId := 0 }

/-- Concrete store for the C5 counterexample and witness: one active,
never-user-modified mapping and one conflict affecting it. -/
def c5Store : MappingStore :=
  { mappings :=
      [{ id := "m1", source_field := "s", target_field := "t",
         transformation_type := "direct_mapping", confidence := mkRat 1 1,
         reasoning := "", transformation_logic := "", potential_issues := [],
         status := MStatus.conflict, user_modified := false, user_command := none,
         created_at := 0, updated_at := 0 }]
    conflicts :=
      [{ id := "c1", type := ConflictType.duplicate_source, description := "d",
         affected_mappings := ["m1"], suggested_resolution := "sr" }]
    documentId := none
    nextId := 0 }

/-- Concrete two-active-mapping store for the C3 counterexample. -/
def c3Store : MappingStore :=
  { mappings :=
      [{ id := "m0", source_field := "name", target_field := "x",
         transformation_type := "direct_mapping", confidence := mkRat 1 1,
         reasoning := "r", transformation_logic := "tl", potential_issues := [],
         status := MStatus.active, user_modified := false, user_command := none,
         created_at := 0, updated_at := 0 },
       { id := "m1", source_field := "other", target_field := "y",
         transformation_type := "direct_mapping", confidence := mkRat 1 1,
         reasoning := "r", transformation_logic := "tl", potential_issues := [],
         status := MStatus.active, user_modified := false, user_command := none,
         created_at := 0, updated_at := 0 }]
    conflicts := []
    documentId := none
    nextId := 0 }

/-! ## Shared lemmas -/

theorem validateMappings_mappings (st : MappingStore) :
    (validateMappings st).mappings = st.mappings := rfl

theorem subAt_nil (l : List Char) : subAt [] l = true := by
  cases l <;> simp [subAt, charsPrefixOf, List.isEmpty]

theorem mem_dedupFirstAux (seen : List String) (l : List String) (a : String) :
    a ∈ dedupFirstAux seen l ↔ a ∈ l ∧ a ∉ seen := by
  induction l generalizing seen with
  | nil => simp [dedupFirstAux]
  | cons s rest ih =>
    by_cases hs : s ∈ seen
    · simp only [dedupFirstAux, if_pos hs, ih]
      constructor
      · rintro ⟨h1, h2⟩; exact ⟨List.mem_cons_of_mem _ h1, h2⟩
      · rintro ⟨h1, h2⟩
        rcases List.mem_cons.mp h1 with rfl | h1
        · exact absurd hs h2
        · exact ⟨h1, h2⟩
    · simp only [dedupFirstAux, if_neg hs, List.mem_cons, ih]
      constructor
      · rintro (rfl | ⟨h1, h2⟩)
        · exact ⟨Or.inl rfl, hs⟩
        · refine ⟨Or.inr h1, fun hmem => h2 ?_⟩
          exact List.mem_append_left _ hmem
      · rintro ⟨rfl | h1, h2⟩
        · exact Or.inl rfl
        · by_cases hae : a = s
          · exact Or.inl hae
          · refine Or.inr ⟨h1, fun hmem => ?_⟩
            rcases List.mem_append.mp hmem with h | h
            · exact h2 h
            · simp at h; exact hae h

theorem nodup_dedupFirstAux (seen : List String) (l : List String) :
    (dedupFirstAux seen l).Nodup := by
  induction l generalizing seen with
  | nil => simp [dedupFirstAux]
  | cons s rest ih =>
    by_cases hs : s ∈ seen
    · simpa [dedupFirstAux, if_pos hs] using ih seen
    · simp only [dedupFirstAux, if_neg hs, List.nodup_cons]
      refine ⟨fun hmem => ?_, ih _⟩
      have := (mem_dedupFirstAux _ _ _).mp hmem
      exact this.2 (List.mem_append_right _ (by simp))

theorem mem_dedupFirst (l : List String) (a : String) : a ∈ dedupFirst l ↔ a ∈ l := by
  simp [dedupFirst, mem_dedupFirstAux]

theorem nodup_dedupFirst (l : List String) : (dedupFirst l).Nodup :=
  nodup_dedupFirstAux [] l

theorem find?_append_of_none {α : Type} (p : α → Bool) (l1 l2 : List α)
    (h : l1.find? p = none) : (l1 ++ l2).find? p = l2.find? p := by
  induction l1 with
  | nil => simp
  | cons a rest ih =>
    rcases hpa : p a with _ | _
    · simp only [List.cons_append, List.find?_cons, hpa]
      apply ih
      simpa [List.find?_cons, hpa] using h
    · simp [List.find?_cons, hpa] at h

theorem str_append_left_cancel (p s t : String) (h : p ++ s = p ++ t) : s = t := by
  have hd : (p ++ s).data = (p ++ t).data := congrArg String.data h
  have hs : (p ++ s).data = p.data ++ s.data := rfl
  have ht : (p ++ t).data = p.data ++ t.data := rfl
  rw [hs, ht] at hd
  have h2 := List.append_cancel_left hd
  cases s; cases t
  exact congrArg String.mk h2

/-! ## Claim C4: removeMapping -/

/-- C4 (amended): `removeMapping(id)` deletes exactly the mapping record
with that id and removes every conflict whose `affected_mappings` contains
the id (it does not strip the id and keep the conflict); it does not re-run
full validation — conflicts are only filtered, never recomputed — and the
remaining store fields are unchanged. -/
theorem removeMapping_spec (st : MappingStore) (mid : String) :
    (∀ m : DynamicMapping,
      m ∈ (removeMapping st mid).mappings ↔ m ∈ st.mappings ∧ m.id ≠ mid) ∧
    (∀ c : MappingConflict,
      c ∈ (removeMapping st mid).conflicts ↔ c ∈ st.conflicts ∧ mid ∉ c.affected_mappings) ∧
    (removeMapping st mid).documentId = st.documentId ∧
    (removeMapping st mid).nextId = st.nextId := by
  refine ⟨fun m => ?_, fun c => ?_, rfl, rfl⟩
  · simp [removeMapping, List.mem_filter]
  · simp only [removeMapping, List.mem_filter, Bool.not_eq_true']
    constructor
    · rintro ⟨h1, h2⟩
      refine ⟨h1, fun hmem => ?_⟩
      have : c.affected_mappings.contains mid = true := List.elem_iff.mpr hmem
      rw [this] at h2; cases h2
    · rintro ⟨h1, h2⟩
      refine ⟨h1, ?_⟩
      rcases hcon : c.affected_mappings.contains mid with _ | _
      · rfl
      · exact absurd (List.elem_iff.mp hcon) h2


/-- C4 counterexample: removing mapping "a" deletes the whole conflict
rather than leaving it with `affected_mappings = ["b"]`, refuting the
claimed stripping behaviour. -/
theorem removeMapping_strip_cex :
    (removeMapping c4Store "a").conflicts = [] ∧
    ¬((removeMapping c4Store "a").conflicts =
      [{ id := "conflict-duplicate-source-s", type := ConflictType.duplicate_source,
         description := "d", affected_mappings := ["b"],
         suggested_resolution := "sr" }]) := by decide

/-! ## Claim C6: the similarity scorer -/

/-- C6 (amended): the sample-mapping generator's field similarity follows
the priority order — 1.0 on normalized equality, else 0.8 on containment,
else 0.6 on a shared domain keyword, else the normalized Levenshtein
similarity `max(0, 1 - dist/maxLen)`; strings that are empty after
normalization go through the same rules (both empty → 1.0 by equality,
exactly one empty → 0.8 by containment, since the empty string is contained
in every string) — there is no special empty-string clause returning 0. -/
theorem similarity_priority_spec (a b : String) :
    (normalizeField a = normalizeField b → calculateFieldSimilarity a b = mkRat 1 1) ∧
    (normalizeField a ≠ normalizeField b →
      (listContainsSub (normalizeField a) (normalizeField b)
        || listContainsSub (normalizeField b) (normalizeField a)) = true →
      calculateFieldSimilarity a b = mkRat 4 5) ∧
    (normalizeField a ≠ normalizeField b →
      (listContainsSub (normalizeField a) (normalizeField b)
        || listContainsSub (normalizeField b) (normalizeField a)) = false →
      (commonWords.any fun w =>
        listContainsSub (normalizeField a) w.data
          && listContainsSub (normalizeField b) w.data) = true →
      calculateFieldSimilarity a b = mkRat 3 5) ∧
    (normalizeField a ≠ normalizeField b →
      (listContainsSub (normalizeField a) (normalizeField b)
        || listContainsSub (normalizeField b) (normalizeField a)) = false →
      (commonWords.any fun w =>
        listContainsSub (normalizeField a) w.data
          && listContainsSub (normalizeField b) w.data) = false →
      calculateFieldSimilarity a b =
        ratMax0 (ratSub (mkRat 1 1)
          (mkRat (levenshteinDistance (normalizeField a) (normalizeField b))
            (natMax (normalizeField a).length (normalizeField b).length)))) ∧
    (normalizeField a = [] → normalizeField b = [] →
      calculateFieldSimilarity a b = mkRat 1 1) ∧
    (normalizeField a = [] → normalizeField b ≠ [] →
      calculateFieldSimilarity a b = mkRat 4 5) ∧
    (normalizeField b = [] → normalizeField a ≠ [] →
      calculateFieldSimilarity a b = mkRat 4 5) := by
  refine ⟨fun h1 => ?_, fun h1 h2 => ?_, fun h1 h2 h3 => ?_, fun h1 h2 h3 => ?_,
    fun h1 h2 => ?_, fun h1 h2 => ?_, fun h1 h2 => ?_⟩
  · simp [calculateFieldSimilarity, h1]
  · simp [calculateFieldSimilarity, h1, h2]
  · simp [calculateFieldSimilarity, h1, h2, h3]
  · simp [calculateFieldSimilarity, h1, h2, h3]
  · have heq : normalizeField a = normalizeField b := h1.trans h2.symm
    simp [calculateFieldSimilarity, heq]
  · have hne : normalizeField a ≠ normalizeField b := by rw [h1]; exact fun h => h2 h.symm
    have hc : listContainsSub (normalizeField b) (normalizeField a) = true := by
      rw [h1]; exact subAt_nil _
    simp [calculateFieldSimilarity, hne, hc]
  · have hne : normalizeField a ≠ normalizeField b := by rw [h1]; exact fun h => h2 h
    have hc : listContainsSub (normalizeField a) (normalizeField b) = true := by
      rw [h1]; exact subAt_nil _
    simp [calculateFieldSimilarity, hne, hc]

/-- C6 counterexample: `"_"` and `"-"` are both empty after normalization
but neither is originally empty — the claim requires similarity 0, the code
returns 1.0; likewise `"_"` versus `"abc"` (one side empty after
normalization) returns 0.8, not 0. -/
theorem similarity_empty_normalization_cex :
    normalizeField "_" = [] ∧ normalizeField "-" = [] ∧
    calculateFieldSimilarity "_" "-" = mkRat 1 1 ∧
    ¬(calculateFieldSimilarity "_" "-" = mkRat 0 1) ∧
    calculateFieldSimilarity "_" "abc" = mkRat 4 5 ∧
    ¬(calculateFieldSimilarity "_" "abc" = mkRat 0 1) := by decide

/-- C6 witness: the priority cases of `similarity_priority_spec` at concrete
inputs — the equality case at `customer_id`/`customerid` and the
Levenshtein fallback case at `abc`/`xyc` (distance 2 of max length 3). -/
theorem similarity_priority_spec_witness :
    calculateFieldSimilarity "customer_id" "customerid" = mkRat 1 1 ∧
    calculateFieldSimilarity "abc" "xyc" =
      ratMax0 (ratSub (mkRat 1 1)
        (mkRat (levenshteinDistance (normalizeField "abc") (normalizeField "xyc"))
          (natMax (normalizeField "abc").length (normalizeField "xyc").length))) :=
  ⟨(similarity_priority_spec "customer_id" "customerid").1 (by decide),
   (similarity_priority_spec "abc" "xyc").2.2.2.1 (by decide) (by decide) (by decide)⟩

/-! ## Claim C9: the single-flight queue -/

/-- C9: submitting while an instruction is in flight returns immediately
with the please-wait failure and an empty change list, leaves the store
untouched and appends the instruction at the tail of the FIFO queue; a
completed run clears the flag, removes the processed instruction from the
queue and schedules a deferred retry of exactly the queue head (if any), so
that at most one instruction is processed at a time. -/
theorem singleFlight_queue_spec (ps : ProcessorState) (toks : List String) (ctx : Ctx)
    (st : MappingStore) (now : Nat) :
    (ps.isProcessing = true →
      (processUserInstruction ps toks ctx st now).result =
        { success := false
          message := "Processing previous instruction, please wait..."
          appliedChanges := [] } ∧
      (processUserInstruction ps toks ctx st now).procState.queue = ps.queue ++ [toks] ∧
      (processUserInstruction ps toks ctx st now).procState.isProcessing = true ∧
      (processUserInstruction ps toks ctx st now).store = st ∧
      (processUserInstruction ps toks ctx st now).scheduled = []) ∧
    (ps.isProcessing = false →
      (processUserInstruction ps toks ctx st now).result =
        (processInstruction toks ctx st now).1 ∧
      (processUserInstruction ps toks ctx st now).store =
        (processInstruction toks ctx st now).2 ∧
      (processUserInstruction ps toks ctx st now).procState.isProcessing = false ∧
      (processUserInstruction ps toks ctx st now).procState.queue =
        (ps.queue ++ [toks]).filter (fun i => i != toks) ∧
      (processUserInstruction ps toks ctx st now).scheduled =
        (match (ps.queue ++ [toks]).filter (fun i => i != toks) with
          | [] => []
          | i :: _ => [i])) := by
  constructor
  · intro h
    simp [processUserInstruction, h]
  · intro h
    simp [processUserInstruction, h]

/-- C9 witness: with instruction `["x"]` queued and the flag set,
submitting `["y"]` is rejected with the please-wait result, queued at the
tail, and the store is untouched. -/
theorem singleFlight_queue_spec_witness :
    (⟨[["x"]], true⟩ : ProcessorState).isProcessing = true ∧
    (processUserInstruction ⟨[["x"]], true⟩ ["y"] ⟨[], [], []⟩ ⟨[], [], none, 0⟩ 0).result =
      { success := false
        message := "Processing previous instruction, please wait..."
        appliedChanges := [] } ∧
    (processUserInstruction ⟨[["x"]], true⟩ ["y"] ⟨[], [], []⟩ ⟨[], [], none, 0⟩ 0).procState.queue =
      [["x"], ["y"]] ∧
    (processUserInstruction ⟨[["x"]], true⟩ ["y"] ⟨[], [], []⟩ ⟨[], [], none, 0⟩ 0).store =
      ⟨[], [], none, 0⟩ := by
  have h := (singleFlight_queue_spec ⟨[["x"]], true⟩ ["y"] ⟨[], [], []⟩ ⟨[], [], none, 0⟩ 0).1 rfl
  exact ⟨rfl, h.1, h.2.1, h.2.2.2.1⟩

/-! ## Claim C10: the unhandled `update` command type -/

/-- C10: the execution switch has no branch for `update` commands — they
fall through to the `❌ Could not execute command` failure with no applied
changes and an unchanged store — even though the parser produces `update`
commands (for "update/change/modify [the] mapping [for] X to Y") at
confidence 0.9 when both fields resolve. -/
theorem updateCommand_unimplemented :
    (∀ (cmd : MappingCommand) (cur : List DynamicMapping) (st : MappingStore) (now : Nat),
      cmd.type = CommandType.update →
      executeCommand cmd cur st now = (couldNotExecute, st)) ∧
    parseCommand ["update", "the", "mapping", "for", "alpha", "to", "beta"]
        ⟨["alpha"], ["beta"]⟩ =
      { command := some
          { type := CommandType.update
            sourceField := some "alpha"
            targetField := some "beta"
            transformationType := none
            confidence := none
            originalCommand := "update the mapping for alpha to beta" }
        confidence := mkRat 9 10
        ambiguities := []
        suggestions := [] } := by
  constructor
  · intro cmd cur st now h
    obtain ⟨ty, sf, tf, tt, cf, oc⟩ := cmd
    simp only at h
    subst h
    rfl
  · decide

/-- C10 witness: the unhandled-branch fact applied at a concrete `update`
command and store. -/
theorem updateCommand_unimplemented_witness :
    executeCommand
        { type := CommandType.update, sourceField := some "alpha",
          targetField := some "beta", originalCommand := "update the mapping for alpha to beta" }
        [] ⟨[], [], none, 0⟩ 0 =
      (couldNotExecute, ⟨[], [], none, 0⟩) :=
  updateCommand_unimplemented.1 _ [] ⟨[], [], none, 0⟩ 0 rfl


/-! ## Claim C8: the execution error boundary -/

/-- C8: `executeCommand`'s `try`/`catch` converts any internal error raised
by a store operation into a failed result carrying the error's message —
for every (even failing) implementation of the store operations the wrapper
returns a plain result, never an exception outcome; and with the real store
operations the body never errors at all, so the public entry point never
propagates an exception. -/
theorem executeCommand_error_boundary :
    (∀ (ops : StoreOps) (cmd : MappingCommand) (cur : List DynamicMapping)
        (st : MappingStore) (now : Nat) (e : String) (st1 : MappingStore),
      executeBodyWith ops cmd cur st now = (Except.error e, st1) →
      executeCommandWith ops cmd cur st now =
        ({ success := false
           message := "❌ Error executing command: " ++ e
           appliedChanges := [] }, st1)) ∧
    (∀ (cmd : MappingCommand) (cur : List DynamicMapping) (st : MappingStore) (now : Nat),
      exceptIsOk (executeBodyWith okOps cmd cur st now).1 = true) := by
  constructor
  · intro ops cmd cur st now e st1 h
    simp [executeCommandWith, h]
  · intro cmd cur st now
    obtain ⟨ty, sf, tf, tt, cf, oc⟩ := cmd
    cases ty
    case create =>
      cases sf with
      | none => rfl
      | some s =>
        cases tf with
        | none => rfl
        | some t =>
          rcases h : cur.find? (fun m => m.source_field == s && m.status == MStatus.active) with _ | ex
          · simp [executeBodyWith, h, okOps, exceptIsOk]
          · simp [executeBodyWith, h, okOps, exceptIsOk]
    case delete =>
      cases sf with
      | none => rfl
      | some s =>
        rcases h : cur.find? (fun m => m.source_field == s && m.status == MStatus.active) with _ | ex
        · simp [executeBodyWith, h, okOps, exceptIsOk]
        · simp [executeBodyWith, h, okOps, exceptIsOk]
    case modify_transformation =>
      cases sf with
      | none => rfl
      | some s =>
        cases tt with
        | none => rfl
        | some t =>
          rcases h : cur.find? (fun m => m.source_field == s && m.status == MStatus.active) with _ | ex
          · simp [executeBodyWith, h, okOps, exceptIsOk]
          · simp [executeBodyWith, h, okOps, exceptIsOk]
    case set_confidence =>
      cases sf with
      | none => rfl
      | some s =>
        cases cf with
        | none => rfl
        | some c =>
          rcases h : cur.find? (fun m => m.source_field == s && m.status == MStatus.active) with _ | ex
          · simp [executeBodyWith, h, okOps, exceptIsOk]
          · simp [executeBodyWith, h, okOps, exceptIsOk]
    case update => rfl
    case unknown => rfl


/-- C8 witness: with throwing store operations, a create command's body
errors and the wrapper converts it into the failed result carrying the
message. -/
theorem executeCommand_error_boundary_witness :
    executeBodyWith boomOps
        { type := CommandType.create, sourceField := some "a", targetField := some "b",
          originalCommand := "map a to b" } [] ⟨[], [], none, 0⟩ 0 =
      (Except.error "boom", ⟨[], [], none, 0⟩) ∧
    executeCommandWith boomOps
        { type := CommandType.create, sourceField := some "a", targetField := some "b",
          originalCommand := "map a to b" } [] ⟨[], [], none, 0⟩ 0 =
      ({ success := false
         message := "❌ Error executing command: " ++ "boom"
         appliedChanges := [] }, ⟨[], [], none, 0⟩) :=
  ⟨rfl, executeCommand_error_boundary.1 boomOps _ [] ⟨[], [], none, 0⟩ 0 "boom" ⟨[], [], none, 0⟩ rfl⟩

/-! ## Claim C7: parser field resolution and confidence policy -/

/-- C7 (amended): a token with an exact case-insensitive vocabulary match
is replaced by the canonical spelling with nothing recorded; a token with
no exact match records an ambiguity naming it plus one did-you-mean
suggestion built from at most 3 similar candidates (substring containment
either way or Levenshtein distance ≤ 2) — but only when at least one
similar candidate exists: with no exact match and no similar candidates
the token is left as-is and no ambiguity is recorded. On a structural
pattern match the returned confidence is 0.9 exactly when zero ambiguities
were recorded and 0.6 otherwise. -/
theorem parser_resolution_spec :
    (∀ (label : String) (fields : List String) (tok canon : String),
      findExactField fields tok = some canon →
      resolveField label fields tok = (canon, [], [])) ∧
    (∀ (label : String) (fields : List String) (tok : String),
      findExactField fields tok = none →
      (findSimilarFields tok fields).isEmpty = false →
      resolveField label fields tok =
        (tok, [label ++ " field \"" ++ tok ++ "\" not found"],
          ["Did you mean: " ++ joinComma (findSimilarFields tok fields) ++ "?"])) ∧
    (∀ (label : String) (fields : List String) (tok : String),
      findExactField fields tok = none →
      (findSimilarFields tok fields).isEmpty = true →
      resolveField label fields tok = (tok, [], [])) ∧
    (∀ (tok : String) (fields : List String),
      (findSimilarFields tok fields).length ≤ 3 ∧
      ∀ f ∈ findSimilarFields tok fields, f ∈ fields ∧ isSimilarField tok f = true) ∧
    (∀ (toks : List String) (vocab : FieldVocab) (ty : CommandType) (ext : Extract),
      matchPatterns (toks.map lowerStr) = some (ty, ext) →
      (parseCommand toks vocab).confidence =
        (if (parseCommand toks vocab).ambiguities.isEmpty then mkRat 9 10 else mkRat 3 5)) := by
  refine ⟨?_, ?_, ?_, ?_, ?_⟩
  · intro label fields tok canon h
    simp [resolveField, h]
  · intro label fields tok h1 h2
    simp [resolveField, h1, h2]
  · intro label fields tok h1 h2
    simp [resolveField, h1, h2]
  · intro tok fields
    constructor
    · rw [findSimilarFields, List.length_take]
      exact min_le_left _ _
    · intro f hf
      have hf2 : f ∈ (fields.filter (isSimilarField tok)) :=
        List.take_subset _ _ hf
      exact ⟨List.mem_of_mem_filter hf2, List.of_mem_filter hf2⟩
  · intro toks vocab ty ext h
    simp [parseCommand, h]

/-- C7 counterexample: with vocabulary `source=["alpha"]`, the token "xyz"
has no exact match and no similar candidate, so no ambiguity is recorded
and the confidence stays 0.9 — the claim requires an ambiguity entry and
confidence 0.6 for every unresolved token. -/
theorem parser_resolution_cex :
    findExactField ["alpha"] "xyz" = none ∧
    (parseCommand ["map", "xyz", "to", "user_id"] ⟨["alpha"], ["user_id"]⟩).ambiguities = [] ∧
    (parseCommand ["map", "xyz", "to", "user_id"] ⟨["alpha"], ["user_id"]⟩).confidence = mkRat 9 10 ∧
    ¬((parseCommand ["map", "xyz", "to", "user_id"] ⟨["alpha"], ["user_id"]⟩).confidence
        = mkRat 3 5) := by decide

set_option maxRecDepth 8000 in
/-- C7 witness: the resolution rules at concrete inputs — an exact match is
canonicalized, and a near-miss ("custmer_id") records the ambiguity plus
the did-you-mean suggestion. -/
theorem parser_resolution_spec_witness :
    resolveField "Source" ["customer_id"] "customer_id" = ("customer_id", [], []) ∧
    resolveField "Source" ["customer_id"] "custmer_id" =
      ("custmer_id", ["Source" ++ " field \"" ++ "custmer_id" ++ "\" not found"],
        ["Did you mean: " ++ joinComma (findSimilarFields "custmer_id" ["customer_id"]) ++ "?"]) :=
  ⟨parser_resolution_spec.1 "Source" ["customer_id"] "customer_id" "customer_id" (by decide),
   parser_resolution_spec.2.1 "Source" ["customer_id"] "custmer_id" (by decide) (by decide)⟩

/-! ## Claim C1: the duplicate-source conflict invariant -/


theorem isDupSourceFor_mkSource (s t : String) (ids : List String) :
    isDupSourceFor s (mkDupSourceConflict t ids) = true ↔ t = s := by
  simp only [isDupSourceFor, mkDupSourceConflict, Bool.and_eq_true, beq_iff_eq]
  constructor
  · rintro ⟨-, h⟩
    exact str_append_left_cancel _ _ _ h
  · rintro rfl
    exact ⟨trivial, rfl⟩

theorem isDupSourceFor_mkTarget (s t : String) (ids : List String) :
    isDupSourceFor s (mkDupTargetConflict t ids) = false := by
  simp [isDupSourceFor, mkDupTargetConflict]

theorem filter_dupTarget_nil (ms : List DynamicMapping) (s : String) :
    (dupTargetConflicts ms).filter (isDupSourceFor s) = [] := by
  rw [List.filter_eq_nil_iff]
  intro c hc
  obtain ⟨t, _, heq⟩ := List.mem_filterMap.mp hc
  by_cases hlen : 1 < (activeTargetIds ms t).length
  · rw [if_pos hlen] at heq
    cases heq
    simp [isDupSourceFor_mkTarget]
  · rw [if_neg hlen] at heq
    cases heq

theorem filter_dupSource_keys (ms : List DynamicMapping) (s : String) :
    ∀ (keys : List String), keys.Nodup →
    (keys.filterMap (fun t =>
        if 1 < (activeSourceIds ms t).length
        then some (mkDupSourceConflict t (activeSourceIds ms t)) else none)).filter
      (isDupSourceFor s) =
    (if s ∈ keys ∧ 1 < (activeSourceIds ms s).length
     then [mkDupSourceConflict s (activeSourceIds ms s)] else []) := by
  intro keys hnd
  induction keys with
  | nil => simp
  | cons k ks ih =>
    obtain ⟨hk, hnd'⟩ := List.nodup_cons.mp hnd
    have ihr := ih hnd'
    by_cases hlen : 1 < (activeSourceIds ms k).length
    · have hfk : (fun t =>
          if 1 < (activeSourceIds ms t).length
          then some (mkDupSourceConflict t (activeSourceIds ms t)) else none) k =
            some (mkDupSourceConflict k (activeSourceIds ms k)) := if_pos hlen
      rw [@List.filterMap_cons_some String MappingConflict
        (fun t =>
          if 1 < (activeSourceIds ms t).length
          then some (mkDupSourceConflict t (activeSourceIds ms t)) else none)
        k ks _ hfk, List.filter_cons]
      by_cases hks : k = s
      · subst hks
        rw [if_pos ((isDupSourceFor_mkSource k k _).mpr rfl), ihr,
          if_neg (fun hh => hk hh.1), if_pos ⟨List.mem_cons_self k ks, hlen⟩]
      · have hcond : (s ∈ k :: ks ∧ 1 < (activeSourceIds ms s).length) ↔
            (s ∈ ks ∧ 1 < (activeSourceIds ms s).length) := by
          constructor
          · rintro ⟨hm, hx⟩
            rcases List.mem_cons.mp hm with rfl | hm
            · exact absurd rfl hks
            · exact ⟨hm, hx⟩
          · rintro ⟨hm, hx⟩
            exact ⟨List.mem_cons_of_mem _ hm, hx⟩
        have hP : isDupSourceFor s (mkDupSourceConflict k (activeSourceIds ms k)) = false := by
          rcases hPv : isDupSourceFor s (mkDupSourceConflict k (activeSourceIds ms k)) with _ | _
          · rfl
          · exact absurd ((isDupSourceFor_mkSource s k _).mp hPv) hks
        rw [hP, ihr, if_congr hcond.symm rfl rfl]
        simp
    · have hfk : (fun t =>
          if 1 < (activeSourceIds ms t).length
          then some (mkDupSourceConflict t (activeSourceIds ms t)) else none) k =
            (none : Option MappingConflict) := if_neg hlen
      rw [@List.filterMap_cons_none String MappingConflict
        (fun t =>
          if 1 < (activeSourceIds ms t).length
          then some (mkDupSourceConflict t (activeSourceIds ms t)) else none)
        k ks hfk, ihr]
      by_cases hks : k = s
      · subst hks
        rw [if_neg (fun hh => hk hh.1), if_neg (fun hh => hlen hh.2)]
      · have hcond : (s ∈ k :: ks ∧ 1 < (activeSourceIds ms s).length) ↔
            (s ∈ ks ∧ 1 < (activeSourceIds ms s).length) := by
          constructor
          · rintro ⟨hm, hx⟩
            rcases List.mem_cons.mp hm with rfl | hm
            · exact absurd rfl hks
            · exact ⟨hm, hx⟩
          · rintro ⟨hm, hx⟩
            exact ⟨List.mem_cons_of_mem _ hm, hx⟩
        rw [if_congr hcond.symm rfl rfl]

theorem two_le_mem_sourceKeys (ms : List DynamicMapping) (s : String)
    (h : 2 ≤ (activeSourceIds ms s).length) :
    s ∈ dedupFirst (activeSourceFields ms) := by
  rw [mem_dedupFirst]
  have hne : activeSourceIds ms s ≠ [] := by
    intro h0
    rw [h0] at h
    simp at h
  obtain ⟨x, hx⟩ := List.exists_mem_of_ne_nil _ hne
  obtain ⟨m, hm, rfl⟩ := List.mem_map.mp hx
  have hm2 := List.mem_filter.mp hm
  exact List.mem_map.mpr ⟨m, hm2.1, by simpa using hm2.2⟩

/-- C1: after `validateMappings()`, a source field shared by two or more
active mappings has exactly one `duplicate_source` conflict — identified by
its stable id `conflict-duplicate-source-<field>` — whose
`affected_mappings` is exactly the ids of the active mappings with that
source field in mapping order; a source field held by at most one active
mapping has none; and a repeated call rebuilds exactly the same conflict
list, so no duplicate conflict entries ever accumulate. -/
theorem validateMappings_duplicate_source_spec (st : MappingStore) (s : String) :
    (2 ≤ (activeSourceIds st.mappings s).length →
      (validateMappings st).conflicts.filter (isDupSourceFor s) =
        [mkDupSourceConflict s (activeSourceIds st.mappings s)]) ∧
    ((activeSourceIds st.mappings s).length ≤ 1 →
      (validateMappings st).conflicts.filter (isDupSourceFor s) = []) ∧
    (validateMappings (validateMappings st)).conflicts = (validateMappings st).conflicts := by
  have hsplit : (validateMappings st).conflicts.filter (isDupSourceFor s) =
      (dupSourceConflicts st.mappings).filter (isDupSourceFor s) ++
        (dupTargetConflicts st.mappings).filter (isDupSourceFor s) := by
    rw [show (validateMappings st).conflicts =
      dupSourceConflicts st.mappings ++ dupTargetConflicts st.mappings from rfl,
      List.filter_append]
  refine ⟨fun h2 => ?_, fun h1 => ?_, rfl⟩
  · rw [hsplit, filter_dupTarget_nil, List.append_nil]
    simp only [dupSourceConflicts]
    rw [filter_dupSource_keys st.mappings s _ (nodup_dedupFirst _),
      if_pos ⟨two_le_mem_sourceKeys st.mappings s h2, by omega⟩]
  · rw [hsplit, filter_dupTarget_nil, List.append_nil]
    simp only [dupSourceConflicts]
    rw [filter_dupSource_keys st.mappings s _ (nodup_dedupFirst _), if_neg ?_]
    rintro ⟨-, hlt⟩
    omega


/-- C1 witness: on `c1Store`, field `s` (held by the active mappings `w1`
and `w3`) produces exactly its one duplicate-source conflict, and field `u`
(held by one active mapping) produces none. -/
theorem validateMappings_duplicate_source_witness :
    2 ≤ (activeSourceIds c1Store.mappings "s").length ∧
    (validateMappings c1Store).conflicts.filter (isDupSourceFor "s") =
      [mkDupSourceConflict "s" (activeSourceIds c1Store.mappings "s")] ∧
    (activeSourceIds c1Store.mappings "u").length ≤ 1 ∧
    (validateMappings c1Store).conflicts.filter (isDupSourceFor "u") = [] :=
  ⟨by decide,
   (validateMappings_duplicate_source_spec c1Store "s").1 (by decide),
   by decide,
   (validateMappings_duplicate_source_spec c1Store "u").2.1 (by decide)⟩

/-! ## Claim C5: user_modified and updated_at on mutation -/

/-- C5 (amended): `updateMapping(id, updates)` forces `user_modified = true`
and a fresh `updated_at` on the matched record (regardless of the update
payload) and leaves every other record untouched; but
`resolveConflict(conflictId, "modify", data)` only merges the data, forces
`status = active` and refreshes `updated_at` on each affected mapping — it
leaves `user_modified` unchanged unless the data payload itself sets it. -/
theorem mutation_user_modified_spec :
    (∀ (st : MappingStore) (now : Nat) (mid : String) (u : MappingUpdate)
        (m : DynamicMapping),
      m ∈ (updateMapping st now mid u).mappings → m.id = mid →
      m.user_modified = true ∧ m.updated_at = now) ∧
    (∀ (st : MappingStore) (now : Nat) (mid : String) (u : MappingUpdate)
        (m : DynamicMapping),
      m ∈ st.mappings → m.id ≠ mid →
      m ∈ (updateMapping st now mid u).mappings) ∧
    (∀ (st : MappingStore) (now : Nat) (cid : String) (d : MappingUpdate)
        (c : MappingConflict) (m : DynamicMapping),
      st.conflicts.find? (fun c0 => c0.id == cid) = some c →
      m ∈ st.mappings → m.id ∈ c.affected_mappings →
      ({ applyUpdates m d with status := MStatus.active, updated_at := now }
          : DynamicMapping) ∈
        (resolveConflict st now cid Resolution.modify (some d)).mappings ∧
      (d.user_modified = none →
        ({ applyUpdates m d with status := MStatus.active, updated_at := now }
            : DynamicMapping).user_modified = m.user_modified)) := by
  refine ⟨?_, ?_, ?_⟩
  · intro st now mid u m hm hid
    rw [updateMapping, validateMappings_mappings] at hm
    obtain ⟨m0, hm0, heq⟩ := List.mem_map.mp hm
    by_cases h0 : m0.id = mid
    · rw [if_pos (beq_iff_eq.mpr h0)] at heq
      rw [← heq]
      exact ⟨rfl, rfl⟩
    · rw [if_neg (by simpa using h0)] at heq
      subst heq
      exact absurd hid h0
  · intro st now mid u m hm hid
    rw [updateMapping, validateMappings_mappings]
    refine List.mem_map.mpr ⟨m, hm, ?_⟩
    rw [if_neg (by simpa using hid)]
  · intro st now cid d c m hfind hm hid
    constructor
    · rw [resolveConflict, hfind]
      simp only
      refine List.mem_map.mpr ⟨m, hm, ?_⟩
      rw [if_pos (List.elem_iff.mpr hid)]
    · intro hnone
      show (applyUpdates m d).user_modified = m.user_modified
      rw [applyUpdates]
      simp [hnone]


/-- C5 counterexample: resolving conflict `c1` with `modify` and a data
payload that changes `target_field` leaves the affected mapping with its
field changed and `updated_at` refreshed — but `user_modified` still
`false`, refuting the claimed invariant for conflict-resolution mutations. -/
theorem resolveConflict_modify_user_modified_cex :
    ((resolveConflict c5Store 5 "c1" Resolution.modify
        (some { target_field := some "t2" })).mappings.map
      (fun m => (m.target_field, m.updated_at, m.user_modified))) = [("t2", 5, false)] ∧
    ¬(∀ m ∈ (resolveConflict c5Store 5 "c1" Resolution.modify
        (some { target_field := some "t2" })).mappings, m.user_modified = true) := by
  decide

/-- C5 witness: the amended rules applied at `c5Store` — `updateMapping`
with an empty payload still forces the flag and timestamp, and the
`modify` resolution with a `target_field`-only payload keeps
`user_modified` at its old value. -/
theorem mutation_user_modified_spec_witness :
    (∀ m ∈ (updateMapping c5Store 7 "m1" {}).mappings,
      m.id = "m1" → m.user_modified = true ∧ m.updated_at = 7) ∧
    (({ applyUpdates
          { id := "m1", source_field := "s", target_field := "t",
            transformation_type := "direct_mapping", confidence := mkRat 1 1,
            reasoning := "", transformation_logic := "", potential_issues := [],
            status := MStatus.conflict, user_modified := false, user_command := none,
            created_at := 0, updated_at := 0 }
          { target_field := some "t2" } with
        status := MStatus.active, updated_at := 5 } : DynamicMapping) ∈
      (resolveConflict c5Store 5 "c1" Resolution.modify
        (some { target_field := some "t2" })).mappings) :=
  ⟨fun m hm hid => mutation_user_modified_spec.1 c5Store 7 "m1" {} m hm hid,
   (mutation_user_modified_spec.2.2 c5Store 5 "c1" { target_field := some "t2" }
      { id := "c1", type := ConflictType.duplicate_source, description := "d",
        affected_mappings := ["m1"], suggested_resolution := "sr" }
      { id := "m1", source_field := "s", target_field := "t",
        transformation_type := "direct_mapping", confidence := mkRat 1 1,
        reasoning := "", transformation_logic := "", potential_issues := [],
        status := MStatus.conflict, user_modified := false, user_command := none,
        created_at := 0, updated_at := 0 }
      (by decide) (by decide) (by decide)).1⟩

/-! ## Claim C3: bulk clear -/

theorem bulkRemoveGo_fst_length (l : List DynamicMapping) :
    ∀ (cs : List MappingChange) (st : MappingStore),
    (bulkRemoveGo l (cs, st)).1.length = cs.length + l.length := by
  induction l with
  | nil => intro cs st; simp [bulkRemoveGo]
  | cons r rest ih =>
    intro cs st
    rw [bulkRemoveGo, ih]
    simp
    omega

theorem bulkRemoveGo_fst_deleted (l : List DynamicMapping) :
    ∀ (cs : List MappingChange) (st : MappingStore),
    cs.all (fun ch => ch.type == ChangeType.deleted) = true →
    (bulkRemoveGo l (cs, st)).1.all (fun ch => ch.type == ChangeType.deleted) = true := by
  induction l with
  | nil => intro cs st h; simpa [bulkRemoveGo] using h
  | cons r rest ih =>
    intro cs st h
    rw [bulkRemoveGo]
    apply ih
    simp [List.all_append, h]

theorem bulkRemoveGo_snd_mappings (l : List DynamicMapping) :
    ∀ (cs : List MappingChange) (st : MappingStore),
    (bulkRemoveGo l (cs, st)).2.mappings =
      st.mappings.filter (fun m => l.all (fun r => !(m.id == r.id))) := by
  induction l with
  | nil =>
    intro cs st
    simp [bulkRemoveGo]
  | cons r rest ih =>
    intro cs st
    rw [bulkRemoveGo, ih]
    rw [show (removeMapping st r.id).mappings
      = st.mappings.filter (fun m => !(m.id == r.id)) from rfl]
    rw [List.filter_filter]
    apply List.filter_congr
    intro m _
    simp [List.all_cons, Bool.and_comm]

theorem handleBulkRemoval_spec (ctx : Ctx) (st : MappingStore) :
    (handleBulkRemoval ctx st).1.appliedChanges.length
      = (ctx.currentMappings.filter isActiveB).length ∧
    (handleBulkRemoval ctx st).1.appliedChanges.all
      (fun ch => ch.type == ChangeType.deleted) = true ∧
    (handleBulkRemoval ctx st).2.mappings =
      st.mappings.filter (fun m =>
        (ctx.currentMappings.filter isActiveB).all (fun r => !(m.id == r.id))) ∧
    (handleBulkRemoval ctx st).1.success =
      decide (0 < (ctx.currentMappings.filter isActiveB).length) := by
  refine ⟨?_, ?_, ?_, ?_⟩
  · show (bulkRemoveGo (ctx.currentMappings.filter isActiveB) ([], st)).1.length = _
    rw [bulkRemoveGo_fst_length]
    simp
  · exact bulkRemoveGo_fst_deleted _ [] st rfl
  · exact bulkRemoveGo_snd_mappings _ [] st
  · show (decide (0 < (bulkRemoveGo (ctx.currentMappings.filter isActiveB) ([], st)).1.length)) = _
    rw [bulkRemoveGo_fst_length]
    simp

theorem parseCommand_clear_cases (vocab : FieldVocab) :
    (parseCommand ["clear"] vocab).command = none ∨
    ((parseCommand ["clear"] vocab).command =
        some { type := CommandType.unknown, originalCommand := "clear" } ∧
      (parseCommand ["clear"] vocab).confidence = mkRat 3 10) := by
  have hmp : matchPatterns [lowerStr "clear"] = none := by decide
  have hjs : joinSpace ["clear"] = "clear" := by decide
  by_cases hm : parserFieldMentions "clear" vocab = []
  · left
    simp [parseCommand, hmp, hjs, hm, List.isEmpty_iff]
  · right
    constructor <;> simp [parseCommand, hmp, hjs, hm, List.isEmpty_iff]

theorem extractMultipleCommands_clear (vocab : FieldVocab) :
    extractMultipleCommands ["clear"] vocab = [] := by
  have hparts : splitParts ["clear"] = [["clear"]] := by decide
  rw [extractMultipleCommands, hparts]
  rcases parseCommand_clear_cases vocab with hc | ⟨hc, hconf⟩
  · simp [List.filterMap, hc]
  · simp only [List.filterMap, hc, hconf]
    rw [if_neg (by decide : ¬(mkRat 1 2 < mkRat 3 10))]

theorem processInstruction_clear (ctx : Ctx) (st : MappingStore) (now : Nat) :
    processInstruction ["clear"] ctx st now = handleBulkRemoval ctx st := by
  have hctxi : contextualInterpretation ["clear"] ctx st now = handleBulkRemoval ctx st := by
    rw [contextualInterpretation]
    rw [if_neg (by decide), if_neg (by decide), if_pos (by decide)]
  have haienh : aiEnhancedProcessing ["clear"] ctx st now = handleBulkRemoval ctx st := by
    rw [aiEnhancedProcessing, extractMultipleCommands_clear]
    simpa using hctxi
  rcases parseCommand_clear_cases ⟨ctx.sourceFields, ctx.targetFields⟩ with hc | ⟨hc, hconf⟩
  · simp only [processInstruction, hc]
    exact haienh
  · simp only [processInstruction, hc, hconf]
    rw [if_neg (by decide : ¬(mkRat 3 5 < mkRat 3 10))]
    exact haienh

/-- C3 (amended): processing the instruction "clear" through
`processUserInstruction` (idle processor, context mappings equal to the
store's) removes every active mapping from the store and reports exactly
one `deleted` change per active mapping (success exactly when there was at
least one); the instruction "Delete all mappings", by contrast, contains
both "all" and "map" (inside "mappings") and is therefore routed to the
bulk-*mapping* heuristic, not bulk removal — see the counterexample. -/
theorem clear_removes_all_active (sf tf : List String) (st : MappingStore) (now : Nat) :
    (processUserInstruction ⟨[], false⟩ ["clear"] ⟨sf, tf, st.mappings⟩ st now).result.appliedChanges.length
      = (st.mappings.filter isActiveB).length ∧
    (processUserInstruction ⟨[], false⟩ ["clear"] ⟨sf, tf, st.mappings⟩ st now).result.appliedChanges.all
      (fun ch => ch.type == ChangeType.deleted) = true ∧
    (processUserInstruction ⟨[], false⟩ ["clear"] ⟨sf, tf, st.mappings⟩ st now).store.mappings.filter
      isActiveB = [] ∧
    (processUserInstruction ⟨[], false⟩ ["clear"] ⟨sf, tf, st.mappings⟩ st now).result.success
      = decide (0 < (st.mappings.filter isActiveB).length) := by
  have hidle : processUserInstruction ⟨[], false⟩ ["clear"] ⟨sf, tf, st.mappings⟩ st now =
      { result := (processInstruction ["clear"] ⟨sf, tf, st.mappings⟩ st now).1
        procState := ⟨[], false⟩
        store := (processInstruction ["clear"] ⟨sf, tf, st.mappings⟩ st now).2
        scheduled := [] } := by
    simp [processUserInstruction]
  rw [hidle]
  simp only [processInstruction_clear]
  have h := handleBulkRemoval_spec ⟨sf, tf, st.mappings⟩ st
  refine ⟨h.1, h.2.1, ?_, h.2.2.2⟩
  rw [h.2.2.1, List.filter_eq_nil_iff]
  intro m hm
  have hm2 := List.mem_filter.mp hm
  intro hact
  have hmr : m ∈ st.mappings.filter isActiveB :=
    List.mem_filter.mpr ⟨hm2.1, hact⟩
  have hall := List.all_eq_true.mp hm2.2 m hmr
  simp at hall


/-- C3 counterexample: on a store with N = 2 active mappings and vocabulary
`source=["id"]`, `target=["user_id"]`, processing "Delete all mappings"
does not delete anything — the instruction contains "all" and "map"
(inside "mappings"), so the bulk-mapping heuristic runs: one `created`
change is reported and the store grows to 3 mappings, refuting the claimed
N deleted changes and removal of all N active mappings. -/
theorem deleteAll_not_bulk_clear_cex :
    (processUserInstruction ⟨[], false⟩ ["Delete", "all", "mappings"]
        ⟨["id"], ["user_id"], c3Store.mappings⟩ c3Store 1).result.appliedChanges.map
      (fun ch => ch.type) = [ChangeType.created] ∧
    (processUserInstruction ⟨[], false⟩ ["Delete", "all", "mappings"]
        ⟨["id"], ["user_id"], c3Store.mappings⟩ c3Store 1).store.mappings.length = 3 ∧
    ¬((processUserInstruction ⟨[], false⟩ ["Delete", "all", "mappings"]
        ⟨["id"], ["user_id"], c3Store.mappings⟩ c3Store 1).result.appliedChanges.length
        = (c3Store.mappings.filter isActiveB).length ∧
      (processUserInstruction ⟨[], false⟩ ["Delete", "all", "mappings"]
        ⟨["id"], ["user_id"], c3Store.mappings⟩ c3Store 1).result.appliedChanges.all
        (fun ch => ch.type == ChangeType.deleted) = true ∧
      (processUserInstruction ⟨[], false⟩ ["Delete", "all", "mappings"]
        ⟨["id"], ["user_id"], c3Store.mappings⟩ c3Store 1).store.mappings.filter
        isActiveB = []) := by
  decide

/-! ## Claim C2: idempotent exact mapping -/

theorem processUserInstruction_idle (toks : List String) (ctx : Ctx) (st : MappingStore)
    (now : Nat) :
    processUserInstruction ⟨[], false⟩ toks ctx st now =
      { result := (processInstruction toks ctx st now).1
        procState := ⟨[], false⟩
        store := (processInstruction toks ctx st now).2
        scheduled := [] } := by
  simp [processUserInstruction]

theorem parse_map_a_to_b (sf tf : List String) (a b : String)
    (hA : findExactField sf (lowerStr a) = some a)
    (hB : findExactField tf (lowerStr b) = some b)
    (hnf : lowerStr a ≠ "field") :
    parseCommand ["Map", a, "to", b] ⟨sf, tf⟩ =
      { command := some
          { type := CommandType.create
            sourceField := some a
            targetField := some b
            transformationType := none
            confidence := none
            originalCommand := joinSpace ["Map", a, "to", b] }
        confidence := mkRat 9 10
        ambiguities := []
        suggestions := [] } := by
  have hnf' : (lowerStr a == "field") = false := by
    simpa using hnf
  have hnorm : (["Map", a, "to", b].map lowerStr) = ["map", lowerStr a, "to", lowerStr b] := by
    simp [show lowerStr "Map" = "map" from by decide, show lowerStr "to" = "to" from by decide]
  have hm : matchPatterns (["Map", a, "to", b].map lowerStr) =
      some (CommandType.create,
        { sourceField := some (lowerStr a), targetField := some (lowerStr b) }) := by
    rw [hnorm]
    simp [matchPatterns, scanToks, matchCreateMapAt, matchAfterMap, matchXtoY, hnf']
  have hres : resolveExtract ⟨sf, tf⟩
      { sourceField := some (lowerStr a), targetField := some (lowerStr b) } =
      ({ sourceField := some a, targetField := some b }, [], []) := by
    simp [resolveExtract, resolveField, hA, hB]
  simp only [parseCommand, hm, hres]
  simp

theorem executeCommand_create_new (cur : List DynamicMapping) (st : MappingStore)
    (now : Nat) (s t orig : String)
    (hfind : cur.find? (fun m => m.source_field == s && m.status == MStatus.active) = none) :
    executeCommand
        { type := CommandType.create, sourceField := some s, targetField := some t,
          transformationType := none, confidence := none, originalCommand := orig }
        cur st now =
      ({ success := true
         message := "✅ Created mapping: " ++ s ++ " → " ++ t
         appliedChanges :=
           [{ type := ChangeType.created
              mappingId := some ("mapping-" ++ toString st.nextId)
              sourceField := s
              targetField := some t
              details := "Created new mapping" }] },
       (addMapping st now
          { source_field := s, target_field := t, transformation_type := "direct_mapping",
            confidence := mkRat 17 20,
            reasoning := "AI-created mapping via command: \"" ++ orig ++ "\"",
            transformation_logic := s ++ " -> " ++ t, potential_issues := [],
            status := MStatus.active, user_modified := true,
            user_command := some orig }).2) := by
  simp [executeCommand, executeCommandWith, executeBodyWith, hfind, okOps]
  rfl

theorem executeCommand_create_existing (cur : List DynamicMapping) (st : MappingStore)
    (now : Nat) (s t orig : String) (ex : DynamicMapping)
    (hfind : cur.find? (fun m => m.source_field == s && m.status == MStatus.active) = some ex) :
    executeCommand
        { type := CommandType.create, sourceField := some s, targetField := some t,
          transformationType := none, confidence := none, originalCommand := orig }
        cur st now =
      ({ success := true
         message := "✅ Updated mapping: " ++ s ++ " → " ++ t
         appliedChanges :=
           [{ type := ChangeType.updated
              mappingId := some ex.id
              sourceField := s
              targetField := some t
              details := "Updated mapping from " ++ ex.target_field ++ " to " ++ t }] },
       updateMapping st now ex.id
         { target_field := some t
           user_command := some (some orig)
           reasoning := some ("Updated via AI command: \"" ++ orig ++ "\"") }) := by
  simp [executeCommand, executeCommandWith, executeBodyWith, hfind, okOps]

theorem map_id_on {α : Type} (l : List α) (f : α → α) (h : ∀ x ∈ l, f x = x) :
    l.map f = l := by
  induction l with
  | nil => rfl
  | cons x xs ih =>
    rw [List.map_cons, h x (List.mem_cons_self x xs),
      ih (fun y hy => h y (List.mem_cons_of_mem _ hy))]

/-- C2: with `a` and `b` in the vocabularies (each its own canonical
spelling), no active mapping for `a` in the store, and the store's next
generated id fresh, processing "Map a to b" twice in succession yields
exactly one active mapping from `a` to `b`: the first run reports one
`created` change and appends a mapping with
`transformation_type=direct_mapping`, `confidence=0.85`, `status=active`,
`user_modified=true`; the second run succeeds with exactly one `updated`
change and leaves the same single record (target field replaced, no second
record). -/
theorem mapTwice_idempotent (sf tf : List String) (a b : String) (st : MappingStore)
    (now1 now2 : Nat) (o1 o2 : ProcOutcome)
    (hA : findExactField sf (lowerStr a) = some a)
    (hB : findExactField tf (lowerStr b) = some b)
    (hnf : lowerStr a ≠ "field")
    (hnoact : ∀ m ∈ st.mappings, (m.source_field == a && m.status == MStatus.active) = false)
    (hfresh : ∀ m ∈ st.mappings, (m.id == "mapping-" ++ toString st.nextId) = false)
    (ho1 : o1 = processUserInstruction ⟨[], false⟩ ["Map", a, "to", b]
        ⟨sf, tf, st.mappings⟩ st now1)
    (ho2 : o2 = processUserInstruction o1.procState ["Map", a, "to", b]
        ⟨sf, tf, o1.store.mappings⟩ o1.store now2) :
    o1.result.success = true ∧
    o1.result.appliedChanges.map (fun ch => ch.type) = [ChangeType.created] ∧
    (∃ nm : DynamicMapping, o1.store.mappings = st.mappings ++ [nm] ∧
      nm.source_field = a ∧ nm.target_field = b ∧
      nm.transformation_type = "direct_mapping" ∧ nm.confidence = mkRat 17 20 ∧
      nm.status = MStatus.active ∧ nm.user_modified = true) ∧
    o2.result.success = true ∧
    o2.result.appliedChanges.map (fun ch => ch.type) = [ChangeType.updated] ∧
    (∃ nm2 : DynamicMapping, o2.store.mappings = st.mappings ++ [nm2] ∧
      nm2.source_field = a ∧ nm2.target_field = b ∧
      nm2.status = MStatus.active ∧ nm2.user_modified = true) ∧
    (o2.store.mappings.filter
      (fun m => m.source_field == a && m.status == MStatus.active)).length = 1 := by
  have hfind1 : st.mappings.find?
      (fun m => m.source_field == a && m.status == MStatus.active) = none := by
    rw [List.find?_eq_none]
    intro m hm
    rw [hnoact m hm]
    simp
  -- the record appended by the first run
  set j := joinSpace ["Map", a, "to", b] with hj
  set rec1 : DynamicMapping :=
    { id := "mapping-" ++ toString st.nextId
      source_field := a
      target_field := b
      transformation_type := "direct_mapping"
      confidence := mkRat 17 20
      reasoning := "AI-created mapping via command: \"" ++ j ++ "\""
      transformation_logic := a ++ " -> " ++ b
      potential_issues := []
      status := MStatus.active
      user_modified := true
      user_command := some j
      created_at := now1
      updated_at := now1 } with hrec1
  have hpi1 : processInstruction ["Map", a, "to", b] ⟨sf, tf, st.mappings⟩ st now1 =
      ({ success := true
         message := "✅ Created mapping: " ++ a ++ " → " ++ b
         appliedChanges :=
           [{ type := ChangeType.created
              mappingId := some ("mapping-" ++ toString st.nextId)
              sourceField := a
              targetField := some b
              details := "Created new mapping" }] },
       (addMapping st now1
          { source_field := a, target_field := b, transformation_type := "direct_mapping",
            confidence := mkRat 17 20,
            reasoning := "AI-created mapping via command: \"" ++ j ++ "\"",
            transformation_logic := a ++ " -> " ++ b, potential_issues := [],
            status := MStatus.active, user_modified := true,
            user_command := some j }).2) := by
    simp only [processInstruction, parse_map_a_to_b sf tf a b hA hB hnf]
    rw [if_pos (by decide : mkRat 3 5 < mkRat 9 10)]
    exact executeCommand_create_new st.mappings st now1 a b j hfind1
  have ho1' : o1 =
      { result :=
          { success := true
            message := "✅ Created mapping: " ++ a ++ " → " ++ b
            appliedChanges :=
              [{ type := ChangeType.created
                 mappingId := some ("mapping-" ++ toString st.nextId)
                 sourceField := a
                 targetField := some b
                 details := "Created new mapping" }] }
        procState := ⟨[], false⟩
        store := (addMapping st now1
          { source_field := a, target_field := b, transformation_type := "direct_mapping",
            confidence := mkRat 17 20,
            reasoning := "AI-created mapping via command: \"" ++ j ++ "\"",
            transformation_logic := a ++ " -> " ++ b, potential_issues := [],
            status := MStatus.active, user_modified := true,
            user_command := some j }).2
        scheduled := [] } := by
    rw [ho1, processUserInstruction_idle, hpi1]
  have hstore1 : o1.store.mappings = st.mappings ++ [rec1] := by
    rw [ho1']
    rfl
  -- second run
  have hpred1 : (rec1.source_field == a && rec1.status == MStatus.active) = true := by
    simp
  have hfind2 : (st.mappings ++ [rec1]).find?
      (fun m => m.source_field == a && m.status == MStatus.active) = some rec1 := by
    rw [find?_append_of_none _ _ _ hfind1, List.find?_cons, hpred1]
  have hpi2 : processInstruction ["Map", a, "to", b] ⟨sf, tf, o1.store.mappings⟩
      o1.store now2 =
      ({ success := true
         message := "✅ Updated mapping: " ++ a ++ " → " ++ b
         appliedChanges :=
           [{ type := ChangeType.updated
              mappingId := some rec1.id
              sourceField := a
              targetField := some b
              details := "Updated mapping from " ++ rec1.target_field ++ " to " ++ b }] },
       updateMapping o1.store now2 rec1.id
         { target_field := some b
           user_command := some (some j)
           reasoning := some ("Updated via AI command: \"" ++ j ++ "\"") }) := by
    simp only [processInstruction, parse_map_a_to_b sf tf a b hA hB hnf]
    rw [if_pos (by decide : mkRat 3 5 < mkRat 9 10)]
    have : (⟨sf, tf, o1.store.mappings⟩ : Ctx).currentMappings = st.mappings ++ [rec1] := by
      rw [show (⟨sf, tf, o1.store.mappings⟩ : Ctx).currentMappings = o1.store.mappings from rfl,
        hstore1]
    rw [show executeCommand
        { type := CommandType.create, sourceField := some a, targetField := some b,
          transformationType := none, confidence := none, originalCommand := j }
        (⟨sf, tf, o1.store.mappings⟩ : Ctx).currentMappings o1.store now2 =
      executeCommand
        { type := CommandType.create, sourceField := some a, targetField := some b,
          transformationType := none, confidence := none, originalCommand := j }
        (st.mappings ++ [rec1]) o1.store now2 from by rw [this]]
    exact executeCommand_create_existing (st.mappings ++ [rec1]) o1.store now2 a b j rec1 hfind2
  have hps1 : o1.procState = ⟨[], false⟩ := by rw [ho1']
  have ho2' : o2 =
      { result :=
          { success := true
            message := "✅ Updated mapping: " ++ a ++ " → " ++ b
            appliedChanges :=
              [{ type := ChangeType.updated
                 mappingId := some rec1.id
                 sourceField := a
                 targetField := some b
                 details := "Updated mapping from " ++ rec1.target_field ++ " to " ++ b }] }
        procState := ⟨[], false⟩
        store := updateMapping o1.store now2 rec1.id
          { target_field := some b
            user_command := some (some j)
            reasoning := some ("Updated via AI command: \"" ++ j ++ "\"") }
        scheduled := [] } := by
    rw [ho2, hps1, processUserInstruction_idle, hpi2]
  -- the mapped record after the second run
  set rec2 : DynamicMapping :=
    { id := "mapping-" ++ toString st.nextId
      source_field := a
      target_field := b
      transformation_type := "direct_mapping"
      confidence := mkRat 17 20
      reasoning := "Updated via AI command: \"" ++ j ++ "\""
      transformation_logic := a ++ " -> " ++ b
      potential_issues := []
      status := MStatus.active
      user_modified := true
      user_command := some j
      created_at := now1
      updated_at := now2 } with hrec2
  have hstore2 : o2.store.mappings = st.mappings ++ [rec2] := by
    rw [ho2']
    show (updateMapping o1.store now2 rec1.id _).mappings = _
    rw [updateMapping, validateMappings_mappings]
    show (o1.store.mappings.map _) = _
    rw [hstore1, List.map_append]
    congr 1
    · apply map_id_on
      intro m hm
      rw [show rec1.id = "mapping-" ++ toString st.nextId from rfl, hfresh m hm]
      simp
    · rw [List.map_cons, List.map_nil]
      congr 1
      rw [if_pos (by simp)]
      rfl
  have hfilter2 : (o2.store.mappings.filter
      (fun m => m.source_field == a && m.status == MStatus.active)) = [rec2] := by
    rw [hstore2, List.filter_append]
    rw [List.filter_eq_nil_iff.mpr (fun m hm => by rw [hnoact m hm]; simp)]
    rw [List.nil_append, List.filter_cons, if_pos (by simp)]
    rfl
  refine ⟨by rw [ho1'], by rw [ho1']; rfl, ⟨rec1, hstore1, rfl, rfl, rfl, rfl, rfl, rfl⟩,
    by rw [ho2'], by rw [ho2']; rfl, ⟨rec2, hstore2, rfl, rfl, rfl, rfl⟩, ?_⟩
  rw [hfilter2]
  rfl

/-- C2 witness: the two-run scenario at the concrete vocabularies
`["a"]`/`["b"]` and the empty store — the second run reports exactly one
`updated` change. -/
theorem mapTwice_idempotent_witness :
    findExactField ["a"] (lowerStr "a") = some "a" ∧
    lowerStr "a" ≠ "field" ∧
    (processUserInstruction
        (processUserInstruction ⟨[], false⟩ ["Map", "a", "to", "b"]
          ⟨["a"], ["b"], []⟩ ⟨[], [], none, 0⟩ 1).procState
        ["Map", "a", "to", "b"]
        ⟨["a"], ["b"],
          (processUserInstruction ⟨[], false⟩ ["Map", "a", "to", "b"]
            ⟨["a"], ["b"], []⟩ ⟨[], [], none, 0⟩ 1).store.mappings⟩
        (processUserInstruction ⟨[], false⟩ ["Map", "a", "to", "b"]
          ⟨["a"], ["b"], []⟩ ⟨[], [], none, 0⟩ 1).store 2).result.appliedChanges.map
      (fun ch => ch.type) = [ChangeType.updated] := by
  have h := mapTwice_idempotent ["a"] ["b"] "a" "b" ⟨[], [], none, 0⟩ 1 2 _ _
    (by decide) (by decide) (by decide) (by simp) (by simp) rfl rfl
  exact ⟨by decide, by decide, h.2.2.2.2.1⟩
